import Mathlib

/-!
Verification development for the Refoss energy-monitor integration
(`com.refoss.energymonitor`): a shallow embedding in Lean 4 of the
device-communication engine — digest authentication, WebSocket framing,
status normalization, webhook registration, push dispatch and the
poll-loop availability hysteresis — together with theorems settling the
specified properties against that embedding.

JavaScript numbers are modelled as rationals (ℚ); JSON/JS values as the
inductive `J` below; absent object fields (`undefined`) as `Option.none`.
-/

namespace Refoss

/-! ## JS/JSON value model -/

/-- A JavaScript value as it occurs in device payloads: JSON values
(null, booleans, numbers, strings, arrays, objects).  Numbers are
modelled as rationals; `jnan` stands for a non-finite double result
(NaN or ±Infinity, not distinguished — nothing in the claims observes
the difference).  Object fields are an association list in insertion
order; a missing key models JS `undefined`. -/
inductive J where
  | jnull : J
  | jbool : Bool → J
  | jnum  : ℚ → J
  | jnan  : J
  | jstr  : String → J
  | jarr  : List J → J
  | jobj  : List (String × J) → J
deriving Repr, BEq, Inhabited

/-- Property lookup `obj[k]`: `none` models JS `undefined`.  Only objects
carry own properties in our payload domain (arrays/strings expose no
named data fields relevant here). -/
def J.get (v : J) (k : String) : Option J :=
  match v with
  | .jobj fields => (fields.find? (fun p => p.1 = k)).map Prod.snd
  | _ => none

/-- JS truthiness of a possibly-`undefined` value: `undefined`, `null`,
`false`, `0`, `NaN` and `""` are falsy. -/
def jsTruthy : Option J → Bool
  | none => false
  | some .jnull => false
  | some (.jbool b) => b
  | some (.jnum q) => q ≠ 0
  | some .jnan => false
  | some (.jstr s) => s ≠ ""
  | some (.jarr _) => true
  | some (.jobj _) => true

/-- `typeof v === 'object'` (true for objects, arrays and `null`). -/
def jsTypeofObject : J → Bool
  | .jobj _ => true
  | .jarr _ => true
  | .jnull => true
  | _ => false

/-- Parse a decimal numeral (optional sign, digits, optional fraction,
optional exponent) as an exact rational; `none` when the string is not
such a numeral.  Models the grammar of JS `Number(...)` on the plain
decimal forms (hex/octal/`Infinity` forms are out of the payload domain
and map to `none`). -/
def decimalToRat (s : String) : Option ℚ :=
  let chars := s.data
  let (sign, rest) :=
    match chars with
    | '-' :: cs => ((-1 : ℚ), cs)
    | '+' :: cs => ((1 : ℚ), cs)
    | cs => ((1 : ℚ), cs)
  let intPart := rest.takeWhile Char.isDigit
  let rest1 := rest.dropWhile Char.isDigit
  let (fracPart, rest2) :=
    match rest1 with
    | '.' :: cs => (cs.takeWhile Char.isDigit, cs.dropWhile Char.isDigit)
    | cs => ([], cs)
  let (expSign, expDigits, rest3) :=
    match rest2 with
    | 'e' :: '-' :: cs => ((-1 : ℤ), cs.takeWhile Char.isDigit, cs.dropWhile Char.isDigit)
    | 'e' :: '+' :: cs => ((1 : ℤ), cs.takeWhile Char.isDigit, cs.dropWhile Char.isDigit)
    | 'e' :: cs => ((1 : ℤ), cs.takeWhile Char.isDigit, cs.dropWhile Char.isDigit)
    | 'E' :: '-' :: cs => ((-1 : ℤ), cs.takeWhile Char.isDigit, cs.dropWhile Char.isDigit)
    | 'E' :: '+' :: cs => ((1 : ℤ), cs.takeWhile Char.isDigit, cs.dropWhile Char.isDigit)
    | 'E' :: cs => ((1 : ℤ), cs.takeWhile Char.isDigit, cs.dropWhile Char.isDigit)
    | cs => ((1 : ℤ), [], cs)
  let hasExp := match rest2 with
    | 'e' :: _ => true
    | 'E' :: _ => true
    | _ => false
  if rest3 ≠ [] then none
  else if intPart = [] && fracPart = [] then none
  else if hasExp && expDigits = [] then none
  else
    let digitsVal (ds : List Char) : ℕ := ds.foldl (fun a c => 10 * a + (c.toNat - 48)) 0
    let ip : ℚ := (digitsVal intPart : ℚ)
    let fp : ℚ := (digitsVal fracPart : ℚ) / ((10 : ℚ) ^ fracPart.length)
    let e : ℤ := expSign * (digitsVal expDigits : ℤ)
    some (sign * (ip + fp) * (10 : ℚ) ^ e)

/-- JS `Number(v)` (ToNumber) with `none` for NaN.  Strings are trimmed;
an empty trimmed string converts to `0`; objects/arrays go through
ToPrimitive whose results are not plain numerals in our payload domain,
so they are modelled as NaN. -/
def jsToNumber : J → Option ℚ
  | .jnull => some 0
  | .jbool b => some (if b then 1 else 0)
  | .jnum q => some q
  | .jnan => none
  | .jstr s =>
      let t := s.trim
      if t = "" then some 0 else decimalToRat t
  | .jarr _ => none
  | .jobj _ => none

/-- JS `Number.parseInt(s, 10)`: skip leading whitespace, optional sign,
then the longest digit run; `none` models NaN (no digits). -/
def jsParseIntStr (s : String) : Option ℤ :=
  let chars := s.trimLeft.data
  let (sign, rest) :=
    match chars with
    | '-' :: cs => ((-1 : ℤ), cs)
    | '+' :: cs => ((1 : ℤ), cs)
    | cs => ((1 : ℤ), cs)
  let digits := rest.takeWhile Char.isDigit
  if digits = [] then none
  else some (sign * (digits.foldl (fun a c => 10 * a + (c.toNat - 48)) 0 : ℕ))

/-- JS number → string for the integer-valued numbers that occur as
channel ids and map keys (`String(n)`, template-literal interpolation). -/
def jsIntString (i : ℤ) : String := toString i

/-! ## StatusNormalizer (lib/RefossApi.js) -/

/-- `looksLikeChannelStatus` (lib/RefossApi.js lines 85–96): a value looks
like a channel record when it is a truthy object carrying at least one of
the id / measurement / energy fields (a present `null` field counts,
matching `!== undefined`). -/
def looksLikeChannelStatus (v : J) : Bool :=
  jsTruthy (some v) && jsTypeofObject v &&
    ((v.get "id").isSome || (v.get "power").isSome || (v.get "current").isSome ||
     (v.get "voltage").isSome || (v.get "month_energy").isSome ||
     (v.get "day_energy").isSome || (v.get "week_energy").isSome)

/-- Key test `/^em:\d+$/i`: `em:` (case-insensitive) followed by one or
more digits. -/
def isEmIndexKey (k : String) : Bool :=
  let l := k.toLower
  l.startsWith "em:" && (l.drop 3) ≠ "" && (l.drop 3).all Char.isDigit

/-- `Number.parseInt(key.split(':')[1], 10)` for an `em:N` key. -/
def emColonIndex (k : String) : ℤ :=
  (jsParseIntStr (((k.splitOn ":").getD 1 ""))).getD 0

/-- Stable insertion sort by an integer key, modelling the (stable) JS
`Array.prototype.sort` with comparator `ai - bi`. -/
def stableSortByKey (key : α → ℤ) : List α → List α
  | [] => []
  | x :: xs => insertByKey key x (stableSortByKey key xs)
where
  insertByKey (key : α → ℤ) (x : α) : List α → List α
    | [] => [x]
    | y :: ys => if key x ≤ key y then x :: y :: ys else y :: insertByKey key x ys

/-- The object-candidate walk inside `normalizeStatusArray` (lines
127–142): over `Object.values`, arrays contribute their channel-looking
elements, other values contribute themselves when channel-looking. -/
def channelValuesOfObject (fields : List (String × J)) : List J :=
  fields.foldl (fun out p =>
    match p.2 with
    | .jarr items => out ++ items.filter looksLikeChannelStatus
    | v => if looksLikeChannelStatus v then out ++ [v] else out) []

/-- The candidate loop of `normalizeStatusArray` (lines 121–143): skip
falsy candidates; a truthy array is returned as-is (even when empty); a
channel-looking value is wrapped in a singleton; a plain object yields
its channel-looking values when there are any; anything else moves on. -/
def firstStatusCandidate : List (Option J) → List J
  | [] => []
  | c :: rest =>
      if ¬ jsTruthy c then firstStatusCandidate rest
      else
        match c.getD .jnull with
        | .jarr items => items
        | v =>
            if looksLikeChannelStatus v then [v]
            else
              match v with
              | .jobj fields =>
                  let out := channelValuesOfObject fields
                  if out.isEmpty then firstStatusCandidate rest else out
              | _ => firstStatusCandidate rest

/-- `normalizeStatusArray` (lib/RefossApi.js lines 98–146): first the
`em:N`-keyed flat-map shape (filtered on the key pattern and channel
test, sorted by the numeric index with a stable sort), then the known
nesting candidates in priority order.  `a && b` chains evaluate to the
left value when it is falsy, which is what the `sub` helper models. -/
def normalizeStatusArray (result : J) : List J :=
  let emKV : List (String × J) :=
    match result with
    | .jobj fields =>
        stableSortByKey (fun p => emColonIndex p.1)
          (fields.filter (fun p => isEmIndexKey p.1 && looksLikeChannelStatus p.2))
    | _ => []
  if ¬ emKV.isEmpty then emKV.map Prod.snd
  else
    let em := result.get "em"
    let status := result.get "status"
    let channels := result.get "channels"
    let sub (o : Option J) (k : String) : Option J :=
      if jsTruthy o then (o.getD .jnull).get k else o
    firstStatusCandidate
      [em, status, sub em "status", sub status "em", channels,
       sub em "channels", sub status "channels"]

/-- `toNumberOrNull` (lines 148–152): `null`/`undefined` map to null
directly; otherwise JS `Number(...)`, with non-finite results mapped to
null. -/
def toNumberOrNull (v : Option J) : Option ℚ :=
  match v with
  | none => none
  | some .jnull => none
  | some x => jsToNumber x

/-- `normalizeTemperatureValue` (lines 154–164): magnitude-based scale
correction for deci/centi/milli-degree firmware. -/
def normalizeTemperatureValue (v : Option J) : Option ℚ :=
  match toNumberOrNull v with
  | none => none
  | some n =>
      if |n| > 10000 then some (n / 1000)
      else if |n| > 1000 then some (n / 100)
      else if |n| > 200 then some (n / 10)
      else some n

/-- Key test `/(temperature|temp|tmp|t_c|t_f)/i` — since `temp` is a
substring of `temperature`, the regex reduces to a case-insensitive
substring test for `temp`, `tmp`, `t_c` or `t_f`. -/
def isTempKey (k : String) : Bool :=
  let l := k.toLower
  strContains l "temp" || strContains l "tmp" || strContains l "t_c" || strContains l "t_f"
where
  strContains (s pat : String) : Bool :=
    (List.range (s.length + 1)).any (fun i => (s.drop i).startsWith pat)

/-- `extractTempByKeySearch` (lines 166–174): first in-range normalized
value among the temperature-named keys of an object (arrays expose only
numeric indices, which never match the key pattern). -/
def extractTempByKeySearch (obj : Option J) : Option ℚ :=
  match obj with
  | some (.jobj fields) =>
      ((fields.filter (fun p => isTempKey p.1)).filterMap (fun p =>
        match normalizeTemperatureValue (some p.2) with
        | some v => if -80 < v ∧ v < 200 then some v else none
        | none => none)).head?
  | _ => none

/-- The device-temperature extraction of `parseEmStatus` (lines
876–890): candidate locations in priority order, each normalized, the
first value in the plausible range wins; `none` models the final
`?? null`.  A candidate produced by `extractTempByKeySearch` is a JS
number or null and is re-normalized by the `.map` like every other
candidate (values already in range pass through unchanged). -/
def emTemperature (result : J) : Option ℚ :=
  let sys := result.get "sys"
  let sysGet (k : String) : Option J :=
    if jsTruthy sys then (sys.getD .jnull).get k else sys
  let ofSearch (o : Option ℚ) : Option J :=
    match o with
    | some q => some (.jnum q)
    | none => some .jnull
  let candidates : List (Option J) :=
    [result.get "temperature", result.get "temp", result.get "tmp",
     sysGet "temperature", sysGet "temp", sysGet "tmp", sysGet "t",
     ofSearch (extractTempByKeySearch sys),
     ofSearch (extractTempByKeySearch (some result))]
  (candidates.filterMap (fun c =>
    match normalizeTemperatureValue c with
    | some v => if -80 < v ∧ v < 200 then some v else none
    | none => none)).head?

/-- `ch.<k> !== undefined ? ch.<k> : null` — a present field verbatim,
an absent one as JS null. -/
def fieldOrNull (ch : J) (k : String) : J := (ch.get k).getD .jnull

/-- `v != null` (loose): false exactly for `null` and `undefined`. -/
def jsLooseNeqNull : Option J → Bool
  | none => false
  | some .jnull => false
  | some _ => true

/-- `v !== 0` (strict): false only for the number 0. -/
def jsStrictNeqZero : Option J → Bool
  | some (.jnum q) => q ≠ 0
  | _ => true

/-- JS `/` after ToNumber on both sides; division by zero and
non-numeric operands give non-finite results (`jnan`). -/
def jsDiv (a b : J) : J :=
  match jsToNumber a, jsToNumber b with
  | some x, some y => if y = 0 then .jnan else .jnum (x / y)
  | _, _ => .jnan

/-- The apparent-power derivation, duplicated verbatim in
`parseEmStatus` (lines 894–899) and `parseNotifyStatus` (lines
964–969): the explicit `apower` field when present, else `power / pf`
when `power` is present and `pf` is neither null/undefined nor the
number 0, else null. -/
def emApparentPower (ch : J) : J :=
  match ch.get "apower" with
  | some a => a
  | none =>
      if (ch.get "power").isSome && jsLooseNeqNull (ch.get "pf")
          && jsStrictNeqZero (ch.get "pf") then
        jsDiv (fieldOrNull ch "power") (fieldOrNull ch "pf")
      else
        .jnull

/-- One channel entry of the `parseEmStatus` map (lines 901–913). -/
structure EmEntry where
  power : J
  voltage : J
  current : J
  pf : J
  apparentPower : J
  monthEnergy : J
  weekEnergy : J
  dayEnergy : J
  monthRetEnergy : J
  weekRetEnergy : J
  dayRetEnergy : J
deriving Repr

/-- `parseEmStatus` entry construction for one raw channel value. -/
def emEntryOf (ch : J) : EmEntry :=
  { power := fieldOrNull ch "power"
    voltage := fieldOrNull ch "voltage"
    current := fieldOrNull ch "current"
    pf := fieldOrNull ch "pf"
    apparentPower := emApparentPower ch
    monthEnergy := fieldOrNull ch "month_energy"
    weekEnergy := fieldOrNull ch "week_energy"
    dayEnergy := fieldOrNull ch "day_energy"
    monthRetEnergy := fieldOrNull ch "month_ret_energy"
    weekRetEnergy := fieldOrNull ch "week_ret_energy"
    dayRetEnergy := fieldOrNull ch "day_ret_energy" }

/-- A key of the `parseEmStatus` result map.  JS object keys are
strings; numeric keys are kept as rationals here and string keys as
strings (the claims never rely on JS's number-to-string key coercion,
so the two key spaces are modelled as distinct). -/
inductive JKey where
  | knum : ℚ → JKey
  | kstr : String → JKey
deriving Repr, DecidableEq

/-- The property key a JS value is coerced to when used as `map[v]`
(numbers stay numeric in this model; booleans and non-finite numbers
stringify; arrays/objects go through ToString, approximated by their
generic object form — such ids do not occur in device payloads). -/
def jsPropKey : J → JKey
  | .jnum q => .knum q
  | .jstr s => .kstr s
  | .jbool b => .kstr (if b then "true" else "false")
  | .jnan => .kstr "NaN"
  | .jnull => .kstr "null"
  | .jarr _ => .kstr ""
  | .jobj _ => .kstr "[object Object]"

/-- `Number.parseInt(v, 10)` on an arbitrary JS value: the value is
first stringified; for numbers this truncates toward zero (the
exponent-notation corner for magnitudes ≥ 1e21 does not occur for
channel ids and is not modelled); booleans/objects stringify to
non-numeric text (NaN). -/
def jsParseIntOfJ : J → Option ℤ
  | .jnum q => some (if q ≥ 0 then ⌊q⌋ else -⌊-q⌋)
  | .jstr s => jsParseIntStr s
  | _ => none

/-- The per-iteration map assignments of the `parseEmStatus` loop (lines
915–928): the stable 1-based positional key, then the raw id key when
the id is present and non-null, and for string ids additionally the
lowercased key and, when it parses, the numeric key. -/
def emAssignmentsOf (index : ℕ) (ch : J) : List (JKey × EmEntry) :=
  let entry := emEntryOf ch
  let idKeys : List JKey :=
    match ch.get "id" with
    | none => []
    | some .jnull => []
    | some idv =>
        [jsPropKey idv] ++
        (match idv with
         | .jstr s =>
             [JKey.kstr s.toLower] ++
             (match jsParseIntStr s with
              | some n => [JKey.knum n]
              | none => [])
         | _ => [])
  (JKey.knum (index + 1), entry) :: idKeys.map (fun k => (k, entry))

/-- All map assignments of the loop, in execution order. -/
def emAssignments (chs : List J) : List (JKey × EmEntry) :=
  (chs.enum.map (fun p => emAssignmentsOf p.1 p.2)).flatten

/-- The value a present measurement field adds to a running JS `+=`
total: numbers add themselves, null adds 0, booleans their numeric
coercion; a string or object operand turns the JS total into a string
(and NaN keeps it non-numeric), modelled as `none`. -/
def jsNumAddend : J → Option ℚ
  | .jnum q => some q
  | .jnull => some 0
  | .jbool b => some (if b then 1 else 0)
  | _ => none

/-- `total += v`, over the number-or-not model of a JS accumulator. -/
def addField (acc : Option ℚ) (v : J) : Option ℚ :=
  match acc, jsNumAddend v with
  | some a, some b => some (a + b)
  | _, _ => none

/-- The aggregate total for one field (lines 869–871 and 930–931):
starts at 0 and is incremented only by channels in which the field is
present (`!== undefined`). -/
def emTotalOf (field : String) (chs : List J) : Option ℚ :=
  chs.foldl (fun tp ch =>
    match ch.get field with
    | some v => addField tp v
    | none => tp) (some 0)

/-- The result of `parseEmStatus`: the channel-entry map as its
assignment sequence (later assignments overwrite earlier ones), the
device temperature, and the aggregate totals.  The JS code builds all
of these in a single loop; entries, totals and temperature are
independent, so they are computed by separate passes here. -/
structure EmStatusMap where
  assignments : List (JKey × EmEntry)
  temperature : Option ℚ
  totalPower : Option ℚ
  totalCurrent : Option ℚ
deriving Repr

/-- Map lookup: the last assignment to a key wins. -/
def EmStatusMap.find (m : EmStatusMap) (k : JKey) : Option EmEntry :=
  (m.assignments.reverse.find? (fun p => p.1 = k)).map Prod.snd

/-- `result` extraction at the top of `parseEmStatus` (lines 862–864):
a truthy object `raw.result` when present, else the (object) `raw`
itself, else an empty object. -/
def emResultOf (raw : J) : J :=
  if jsTruthy (some raw) && jsTypeofObject raw then
    match raw.get "result" with
    | some r => if jsTruthy (some r) && jsTypeofObject r then r else raw
    | none => raw
  else .jobj []

/-- `RefossApi.parseEmStatus` (lib/RefossApi.js lines 861–936). -/
def parseEmStatus (raw : J) : EmStatusMap :=
  let result := emResultOf raw
  let arr := normalizeStatusArray result
  { assignments := emAssignments arr
    temperature := emTemperature result
    totalPower := emTotalOf "power" arr
    totalCurrent := emTotalOf "current" arr }

/-- The record returned by `parseNotifyStatus` (lines 975–989). -/
structure NotifyRecord where
  method : J
  channelId : J
  power : J
  voltage : J
  current : J
  pf : J
  apparentPower : J
  monthEnergy : J
  weekEnergy : J
  dayEnergy : J
  monthRetEnergy : J
  weekRetEnergy : J
  dayRetEnergy : J
deriving Repr

/-- `RefossApi.parseNotifyStatus` (lib/RefossApi.js lines 955–993) on an
already-parsed body.  The argument is `none` when the posted body was a
string that is not valid JSON (`JSON.parse` throws and the surrounding
catch returns null); a JSON `null` body throws a TypeError on
`parsed.params`, also caught.  The channel object is `params.em`, or
`params.emmerge` when `em` is falsy; a falsy channel value returns null.
The channel id keeps the `parseInt` value when it parses and the raw id
otherwise. -/
def parseNotifyStatus (body : Option J) : Option NotifyRecord :=
  match body with
  | none => none
  | some .jnull => none
  | some parsed =>
      let m : Option J := if jsTruthy (some parsed) then parsed.get "method" else some parsed
      let params : J :=
        if jsTruthy (parsed.get "params") then (parsed.get "params").getD .jnull
        else .jobj []
      let em : J :=
        if jsTruthy (params.get "em") then (params.get "em").getD .jnull
        else if jsTruthy (params.get "emmerge") then (params.get "emmerge").getD .jnull
        else .jnull
      if ¬ jsTruthy (some em) then none
      else
        let channelId : J :=
          match em.get "id" with
          | none => .jnull
          | some .jnull => .jnull
          | some idv =>
              match jsParseIntOfJ idv with
              | some n => .jnum n
              | none => idv
        some
          { method := if jsTruthy m then m.getD .jnull else .jnull
            channelId := channelId
            power := fieldOrNull em "power"
            voltage := fieldOrNull em "voltage"
            current := fieldOrNull em "current"
            pf := fieldOrNull em "pf"
            apparentPower := emApparentPower em
            monthEnergy := fieldOrNull em "month_energy"
            weekEnergy := fieldOrNull em "week_energy"
            dayEnergy := fieldOrNull em "day_energy"
            monthRetEnergy := fieldOrNull em "month_ret_energy"
            weekRetEnergy := fieldOrNull em "week_ret_energy"
            dayRetEnergy := fieldOrNull em "day_ret_energy" }

/-! ## TransportClient: MD5 and HTTP Digest authentication (lib/RefossApi.js) -/

/-- The 64 MD5 sine-derived round constants, `⌊|sin(i+1)|·2^32⌋`. -/
def md5K : List ℕ :=
  [0xd76aa478, 0xe8c7b756, 0x242070db, 0xc1bdceee,
   0xf57c0faf, 0x4787c62a, 0xa8304613, 0xfd469501,
   0x698098d8, 0x8b44f7af, 0xffff5bb1, 0x895cd7be,
   0x6b901122, 0xfd987193, 0xa679438e, 0x49b40821,
   0xf61e2562, 0xc040b340, 0x265e5a51, 0xe9b6c7aa,
   0xd62f105d, 0x02441453, 0xd8a1e681, 0xe7d3fbc8,
   0x21e1cde6, 0xc33707d6, 0xf4d50d87, 0x455a14ed,
   0xa9e3e905, 0xfcefa3f8, 0x676f02d9, 0x8d2a4c8a,
   0xfffa3942, 0x8771f681, 0x6d9d6122, 0xfde5380c,
   0xa4beea44, 0x4bdecfa9, 0xf6bb4b60, 0xbebfbc70,
   0x289b7ec6, 0xeaa127fa, 0xd4ef3085, 0x04881d05,
   0xd9d4d039, 0xe6db99e5, 0x1fa27cf8, 0xc4ac5665,
   0xf4292244, 0x432aff97, 0xab9423a7, 0xfc93a039,
   0x655b59c3, 0x8f0ccc92, 0xffeff47d, 0x85845dd1,
   0x6fa87e4f, 0xfe2ce6e0, 0xa3014314, 0x4e0811a1,
   0xf7537e82, 0xbd3af235, 0x2ad7d2bb, 0xeb86d391]

/-- The 64 MD5 per-round left-rotation amounts. -/
def md5S : List ℕ :=
  [7, 12, 17, 22, 7, 12, 17, 22, 7, 12, 17, 22, 7, 12, 17, 22,
   5, 9, 14, 20, 5, 9, 14, 20, 5, 9, 14, 20, 5, 9, 14, 20,
   4, 11, 16, 23, 4, 11, 16, 23, 4, 11, 16, 23, 4, 11, 16, 23,
   6, 10, 15, 21, 6, 10, 15, 21, 6, 10, 15, 21, 6, 10, 15, 21]

/-- 32-bit left rotation on naturals below 2^32. -/
def rotl32 (x n : ℕ) : ℕ := ((x <<< n) ||| (x >>> (32 - n))) % 2 ^ 32

/-- One MD5 round on the state `(a, b, c, d)`, with `M` the 16
little-endian message words of the current block. -/
def md5Step (M : ℕ → ℕ) (st : ℕ × ℕ × ℕ × ℕ) (i : ℕ) : ℕ × ℕ × ℕ × ℕ :=
  let (a, b, c, d) := st
  let f :=
    if i < 16 then (b &&& c) ||| ((0xffffffff ^^^ b) &&& d)
    else if i < 32 then (d &&& b) ||| ((0xffffffff ^^^ d) &&& c)
    else if i < 48 then b ^^^ c ^^^ d
    else c ^^^ (b ||| (0xffffffff ^^^ d))
  let g :=
    if i < 16 then i
    else if i < 32 then (5 * i + 1) % 16
    else if i < 48 then (3 * i + 5) % 16
    else (7 * i) % 16
  let tmp := (a + f + md5K.getD i 0 + M g) % 2 ^ 32
  (d, (b + rotl32 tmp (md5S.getD i 0)) % 2 ^ 32, b, c)

/-- Process one 64-byte block. -/
def md5ProcessBlock (st : ℕ × ℕ × ℕ × ℕ) (block : List ℕ) : ℕ × ℕ × ℕ × ℕ :=
  let M := fun j => block.getD (4 * j) 0 + block.getD (4 * j + 1) 0 * 2 ^ 8 +
    block.getD (4 * j + 2) 0 * 2 ^ 16 + block.getD (4 * j + 3) 0 * 2 ^ 24
  let r := (List.range 64).foldl (md5Step M) st
  ((st.1 + r.1) % 2 ^ 32, (st.2.1 + r.2.1) % 2 ^ 32,
   (st.2.2.1 + r.2.2.1) % 2 ^ 32, (st.2.2.2 + r.2.2.2) % 2 ^ 32)

/-- MD5 padding: a 0x80 byte, zeros to 56 mod 64, then the bit length as
8 little-endian bytes. -/
def md5Pad (msg : List ℕ) : List ℕ :=
  let len := msg.length
  let k := (55 + 64 - len % 64) % 64
  let bitLen := 8 * len % 2 ^ 64
  msg ++ [0x80] ++ List.replicate k 0 ++
    (List.range 8).map (fun i => bitLen / 2 ^ (8 * i) % 256)

/-- Split a byte list into 64-byte chunks (structural recursion on a
fuel argument so that the definition computes by kernel reduction; the
fuel `l.length` always suffices since each step consumes 64 bytes). -/
def chunks64Aux : ℕ → List ℕ → List (List ℕ)
  | 0, _ => []
  | fuel + 1, l => if l.isEmpty then [] else l.take 64 :: chunks64Aux fuel (l.drop 64)

/-- Split a byte list into 64-byte chunks. -/
def chunks64 (l : List ℕ) : List (List ℕ) := chunks64Aux l.length l

/-- MD5 of a byte sequence (digest bytes, little-endian words). -/
def md5Bytes (msg : List ℕ) : List ℕ :=
  let st := (chunks64 (md5Pad msg)).foldl md5ProcessBlock
    (0x67452301, 0xefcdab89, 0x98badcfe, 0x10325476)
  ([st.1, st.2.1, st.2.2.1, st.2.2.2].map
    (fun w => (List.range 4).map (fun i => w / 2 ^ (8 * i) % 256))).flatten

/-- Lowercase hex digit. -/
def hexDigit (n : ℕ) : Char := "0123456789abcdef".data.getD n '0'

/-- Lowercase hex rendering of digest bytes. -/
def bytesToHex (bs : List ℕ) : String :=
  String.mk (bs.flatMap (fun b => [hexDigit (b / 16), hexDigit (b % 16)]))

/-- `md5(str)` (lib/RefossApi.js lines 29–31): the lowercase hex MD5 of
the string's UTF-8 bytes — all digest inputs are ASCII, where the UTF-8
encoding is the code-point sequence. -/
def md5hex (s : String) : String := bytesToHex (md5Bytes (s.data.map Char.toNat))

/-- JS `n.toString(16)` for naturals (lowercase hex, no leading zeros);
structural recursion on fuel so it computes by kernel reduction (fuel
`n` always suffices). -/
def natHexAux : ℕ → ℕ → List Char
  | 0, _ => []
  | fuel + 1, n => if n = 0 then [] else natHexAux fuel (n / 16) ++ [hexDigit (n % 16)]

/-- `nc.toString(16).padStart(8, '0')` (line 48): the nonce count as
hex, left-padded with zeros to (at least) 8 digits. -/
def ncHexStr (nc : ℕ) : String :=
  let s := if nc = 0 then "0" else String.mk (natHexAux nc nc)
  String.mk (List.replicate (8 - s.length) '0') ++ s

/-- The fields of a parsed `WWW-Authenticate: Digest` challenge
(`parseDigestChallenge`, lines 34–40): `none` models an absent field. -/
structure DigestChallenge where
  realm : String
  nonce : String
  qop : Option String
  opq : Option String
  algorithm : Option String
deriving Repr

/-- HA1 (lines 44–46): `MD5(username:realm:password)`, or the MD5-sess
variant `MD5(MD5(username:realm:password):nonce:cnonce)` when the
challenge algorithm (uppercased) is `MD5-SESS`. -/
def digestHA1 (username password : String) (ch : DigestChallenge) (cnonce : String) : String :=
  if (ch.algorithm.getD "").toUpper = "MD5-SESS" then
    md5hex (md5hex (username ++ ":" ++ ch.realm ++ ":" ++ password) ++ ":" ++
      ch.nonce ++ ":" ++ cnonce)
  else
    md5hex (username ++ ":" ++ ch.realm ++ ":" ++ password)

/-- The digest response hash (lines 47–51): HA2 = `MD5(method:path)`;
with qop the response is
`MD5(HA1:nonce:ncHex:cnonce:qop:HA2)`, without it `MD5(HA1:nonce:HA2)`. -/
def digestResponse (username password method path : String) (ch : DigestChallenge)
    (nc : ℕ) (cnonce : String) : String :=
  let ha1 := digestHA1 username password ch cnonce
  let ha2 := md5hex (method ++ ":" ++ path)
  match ch.qop with
  | some q => md5hex (ha1 ++ ":" ++ ch.nonce ++ ":" ++ ncHexStr nc ++ ":" ++ cnonce ++
      ":" ++ q ++ ":" ++ ha2)
  | none => md5hex (ha1 ++ ":" ++ ch.nonce ++ ":" ++ ha2)

/-- `buildDigestHeader` (lines 42–57): the `Authorization` header value,
appending the qop/nc/cnonce clause when qop is present and the opaque
clause when present. -/
def buildDigestHeader (username password method path : String) (ch : DigestChallenge)
    (nc : ℕ) (cnonce : String) : String :=
  let response := digestResponse username password method path ch nc cnonce
  let base := "Digest username=\"" ++ username ++ "\", realm=\"" ++ ch.realm ++
    "\", nonce=\"" ++ ch.nonce ++ "\", uri=\"" ++ path ++ "\", response=\"" ++ response ++ "\""
  let withQop :=
    match ch.qop with
    | some q => base ++ ", qop=" ++ q ++ ", nc=" ++ ncHexStr nc ++ ", cnonce=\"" ++ cnonce ++ "\""
    | none => base
  match ch.opq with
  | some o => withQop ++ ", opaque=\"" ++ o ++ "\""
  | none => withQop

/-! ## TransportClient: `_get` error ordering (lib/RefossApi.js lines 205–248) -/

/-- The typed failures of the transport layer (`_get`/`_post` and
`parseJson`), carrying the data the JS error messages embed. -/
inductive ApiError where
  | missingCredentials : ApiError
  | badCredentials : ApiError
  | httpStatus : ℕ → ApiError
  | deviceError : J → J → ApiError
  | invalidJson : ApiError
  | nullAccess : ApiError
deriving Repr

/-- `v < 0` after JS numeric coercion (false for NaN). -/
def jsLtZero (v : J) : Bool :=
  match jsToNumber v with
  | some q => q < 0
  | none => false

/-- `parseJson` (lib/RefossApi.js lines 69–83) on an already-decoded
body: `none` models body text that is not valid JSON (`JSON.parse`
throws, surfaced as a device-error message); a JSON `null` body throws a
TypeError on `parsed.code` (modelled as `nullAccess`); a parsed value
whose `code` field is present and numerically negative is the legacy
error envelope; a truthy object `error` field is the JSON-RPC envelope;
anything else is returned as the parsed result. -/
def parseJson (body : Option J) : Except ApiError J :=
  match body with
  | none => .error .invalidJson
  | some .jnull => .error .nullAccess
  | some parsed =>
      let legacy :=
        match parsed.get "code" with
        | some c => jsLtZero c
        | none => false
      if legacy then
        .error (.deviceError (fieldOrNull parsed "code") (fieldOrNull parsed "message"))
      else
        let e := parsed.get "error"
        if jsTruthy e && jsTypeofObject (e.getD .jnull) then
          .error (.deviceError (fieldOrNull (e.getD .jnull) "code")
            (fieldOrNull (e.getD .jnull) "message"))
        else
          .ok parsed

/-- One HTTP response as `_get` observes it: the status code, the body
(already decoded from text; `none` = not valid JSON) and the parsed
`WWW-Authenticate` challenge. -/
structure HttpResp where
  status : ℕ
  body : Option J
  challenge : DigestChallenge

/-- What one `_get` call produces: the result or typed failure, the
updated `_nc` counter, and the `Authorization` header of the retry when
one was sent. -/
structure GetOutcome where
  result : Except ApiError J
  ncAfter : ℕ
  authHeaderSent : Option String

/-- `_get` (lib/RefossApi.js lines 205–248): the unauthenticated request
is sent first and yields `resp1`.  On a 401 without a configured
username the call fails with the missing-credentials error and no retry;
otherwise `_nc` is incremented, a fresh client nonce is drawn (passed in
as `cnonce` — `crypto.randomBytes` is the only nondeterminism) and the
request is retried exactly once with the computed Digest header,
yielding `resp2`: a second 401 is the bad-credentials failure, any other
non-200 status an HTTP-status failure, and a 200 body goes through
`parseJson`.  Without the initial 401, a non-200 status fails and a 200
body goes through `parseJson` directly. -/
def refossGet (creds : Option (String × String)) (nc : ℕ) (cnonce : String)
    (path : String) (resp1 resp2 : HttpResp) : GetOutcome :=
  if resp1.status = 401 then
    match creds with
    | none => ⟨.error .missingCredentials, nc, none⟩
    | some (u, p) =>
        let nc' := nc + 1
        let hdr := buildDigestHeader u p "GET" ("/rpc/" ++ path) resp1.challenge nc' cnonce
        if resp2.status = 401 then ⟨.error .badCredentials, nc', some hdr⟩
        else if ¬ resp2.status = 200 then ⟨.error (.httpStatus resp2.status), nc', some hdr⟩
        else ⟨parseJson resp2.body, nc', some hdr⟩
  else if ¬ resp1.status = 200 then ⟨.error (.httpStatus resp1.status), nc, none⟩
  else ⟨parseJson resp1.body, nc, none⟩

/-! ## WebhookRegistrar (lib/RefossApi.js `registerHomeyWebhook`) -/

/-- One device-side webhook subscription as listed by `Webhook.List`. -/
structure Hook where
  id : ℕ
  name : String
  event : String
  cid : ℤ
deriving Repr, DecidableEq

/-- The simulated device's webhook store: the current hooks and a
fresh-id counter. -/
structure DevState where
  hooks : List Hook
  nextId : ℕ
deriving Repr

/-- `HOOK_NAME` (lib/RefossApi.js line 709): the current naming
convention, hyphen-free. -/
def HOOK_NAME : String := "homeyrefoss"

/-- The stale-hook test of lines 719–723 (identical at 816–820): the
current name, the legacy hyphenated name, or the per-channel name
beginning with `homeyrefossc`. -/
def isHomeyHookName (name : String) : Bool :=
  name = HOOK_NAME || name = "homey-refoss" || name.startsWith (HOOK_NAME ++ "c")

/-- `Webhook.Delete` on the simulated device: removes the hooks carrying
the given id. -/
def deleteWebhook (id : ℕ) (s : DevState) : DevState :=
  { s with hooks := s.hooks.filter (fun h => ¬ h.id = id) }

/-- The cleanup loop (lines 713–729): iterate over the listed hooks and
delete, by id, every one whose name matches the naming conventions. -/
def deleteHomeyHooks (s : DevState) : DevState :=
  (s.hooks.filter (fun h => isHomeyHookName h.name)).foldl
    (fun st h => deleteWebhook h.id st) s

/-- `Webhook.Create` on the simulated device: always succeeds, appending
a hook with the next fresh id (the device accepts the first, aggregate
`emmerge` creation attempt). -/
def createWebhook (name event : String) (cid : ℤ) (s : DevState) : DevState × ℕ :=
  ({ hooks := s.hooks ++ [{ id := s.nextId, name := name, event := event, cid := cid }],
     nextId := s.nextId + 1 }, s.nextId)

/-- `[...new Set(xs)]`: deduplicate keeping first occurrences
(structural recursion on fuel, which `l.length` always covers). -/
def jsSetDedupAux : ℕ → List ℤ → List ℤ
  | 0, _ => []
  | _, [] => []
  | fuel + 1, x :: xs => x :: jsSetDedupAux fuel (xs.filter (fun y => ¬ y = x))

/-- `[...new Set(xs)]`: deduplicate keeping first occurrences. -/
def jsSetDedup (l : List ℤ) : List ℤ := jsSetDedupAux l.length l

/-- `registerHomeyWebhook` (lib/RefossApi.js lines 708–802) run against
the simulated device (listing succeeds and creations succeed): delete
every hook matching the naming conventions; create the primary
`homeyrefoss` hook with the aggregate (`emmerge.`-prefixed) event and
cid 1; then, when the per-channel (`em.`-prefixed) event applies and
more than one distinct positive channel id was supplied, create one
`homeyrefossc<cid>` hook per channel id.  The `String.replace` prefix
rewrites of the JS are expressed with `drop` under the corresponding
`startsWith` guards. -/
def registerHomeyWebhook (emEvent : String) (channelIds : List ℤ) (s : DevState) : DevState :=
  let s1 := deleteHomeyHooks s
  let isPerChannel := emEvent.startsWith "em." && ¬ emEvent.startsWith "emmerge."
  let mergeEvent := if isPerChannel then "emmerge." ++ emEvent.drop 3 else emEvent
  let s2 := (createWebhook HOOK_NAME mergeEvent 1 s1).1
  let perChannelEvent :=
    if emEvent.startsWith "emmerge." then "em." ++ emEvent.drop 8 else emEvent
  let perChannelIds := jsSetDedup (channelIds.filter (fun i => 0 < i))
  if perChannelEvent.startsWith "em." && decide (1 < perChannelIds.length) then
    perChannelIds.foldl (fun st cid =>
      (createWebhook (HOOK_NAME ++ "c" ++ toString cid) perChannelEvent cid st).1) s2
  else s2

/-- `unregisterHomeyWebhook` (lines 808–825): the same cleanup loop. -/
def unregisterHomeyWebhook (s : DevState) : DevState := deleteHomeyHooks s

/-- Number of hooks carrying a given name. -/
def countName (l : List Hook) (n : String) : ℕ :=
  (l.filter (fun h => h.name = n)).length

/-! ## RpcSocketClient: WebSocket frame encode/decode (lib/RefossApi.js `_wsRpc`) -/

/-- The XOR-masking loop `masked[i] = msg[i] ^ mask[i % 4]` (line 566 on
send; the receive side at lines 592–594 applies the identical map),
started at byte index `i`. -/
def maskBytesFrom (mask : List ℕ) (i : ℕ) : List ℕ → List ℕ
  | [] => []
  | b :: bs => (b ^^^ mask.getD (i % 4) 0) :: maskBytesFrom mask (i + 1) bs

/-- XOR-mask a whole payload with a 4-byte mask. -/
def maskPayload (mask : List ℕ) (payload : List ℕ) : List ℕ :=
  maskBytesFrom mask 0 payload

/-- The masked text frame built by `_wsRpc` (lib/RefossApi.js lines
551–567): first byte `0x81` (FIN + text opcode), then the mask bit
`0x80` combined with the 7-bit length for `len < 126`, the marker 126
plus a 16-bit big-endian length for `len < 65536`, or the marker 127
plus an 8-byte length whose high four bytes are written as zero;
`(len >> k) & 0xff` is written `len / 2^k % 256`.  The 4 mask bytes
follow the header, then the XOR-masked payload. -/
def wsEncodeFrame (mask : List ℕ) (payload : List ℕ) : List ℕ :=
  let len := payload.length
  let header : List ℕ :=
    if len < 126 then [0x81, 0x80 + len]
    else if len < 65536 then [0x81, 0x80 + 126, len / 2 ^ 8 % 256, len % 256]
    else [0x81, 0x80 + 127, 0, 0, 0, 0,
      len / 2 ^ 24 % 256, len / 2 ^ 16 % 256, len / 2 ^ 8 % 256, len % 256]
  header ++ mask ++ maskPayload mask payload

/-- The receive-side frame parse of `_wsRpc` (lib/RefossApi.js lines
571–596): read `b0`/`b1`, the length-field variant selected by
`b1 & 0x7f` (= `b1 % 128`; the mask bit `(b1 & 0x80) !== 0` is
`128 ≤ b1` for byte values), wait for more data (`none`) while the
buffer is shorter than the announced frame, then slice off the mask and
payload and unmask.  Returns `(b0, isMasked, payload, remaining buffer)`.
The 64-bit variant reads only bytes 6–9, as the JS does (for payload
lengths below 2^31 the JS 32-bit signed shifts agree with this ℕ
arithmetic). -/
def wsDecodeFrame (buf : List ℕ) : Option (ℕ × Bool × List ℕ × List ℕ) :=
  match buf with
  | b0 :: b1 :: _ =>
      let pl0 := b1 % 128
      let step : Option (ℕ × ℕ) :=
        if pl0 = 126 then
          if buf.length < 4 then none
          else some (buf.getD 2 0 * 2 ^ 8 + buf.getD 3 0, 4)
        else if pl0 = 127 then
          if buf.length < 10 then none
          else some (buf.getD 6 0 * 2 ^ 24 + buf.getD 7 0 * 2 ^ 16 +
            buf.getD 8 0 * 2 ^ 8 + buf.getD 9 0, 10)
        else some (pl0, 2)
      match step with
      | none => none
      | some (payLen, offset) =>
          if 128 ≤ b1 then
            if buf.length < offset + 4 + payLen then none
            else
              some (b0, true,
                maskPayload ((buf.drop offset).take 4) ((buf.drop (offset + 4)).take payLen),
                buf.drop (offset + 4 + payLen))
          else
            if buf.length < offset + payLen then none
            else some (b0, false, (buf.drop offset).take payLen, buf.drop (offset + payLen))
  | _ => none

/-! ## PushDispatchServer (app.js `_startWebhookServer`) -/

/-- An observable action of the webhook server's request handler; the
produced list records the actions in execution order, so the 200
acknowledgement written before the body is parsed precedes every handler
invocation. -/
inductive ServerEvent where
  | respond : ℕ → ServerEvent
  | invoke : String → ServerEvent
deriving Repr, DecidableEq

/-- Template-literal conversion of a parsed channel id for the
`MAC:channelId` registry key: integers print plainly, strings verbatim,
null as `null`; other shapes (not produced by device pushes) are
approximated by their generic JS renderings. -/
def jsKeyString : J → String
  | .jnum q => if q.den = 1 then toString q.num else toString q.num ++ "/" ++ toString q.den
  | .jstr s => s
  | .jnull => "null"
  | .jbool b => if b then "true" else "false"
  | .jnan => "NaN"
  | .jarr _ => ""
  | .jobj _ => "[object Object]"

/-- `req.url.split('/webhook/')[1] || ''` (app.js line 165). -/
def macOfUrl (url : String) : String := (url.splitOn "/webhook/").getD 1 ""

/-- The channel-handler registry key `"<MAC>:<channelId>"` (app.js lines
188 and 227–229). -/
def channelKeyOf (mac : String) (r : NotifyRecord) : String :=
  mac ++ ":" ++ jsKeyString r.channelId

/-- One request against the server of `_startWebhookServer` (app.js
lines 156–204).  `registry` is the key set of `_webhookHandlers`;
`body` is the posted body (`none` = text that is not valid JSON).
Non-POSTs and foreign paths get 404.  A `/webhook/<mac>` POST is
acknowledged with 200 before the body is parsed; when
`parseNotifyStatus` yields a record, the handler under the uppercased
mac and the handler under the `MAC:channelId` key are each invoked when
registered; a null parse invokes nothing, and no error response ever
follows the acknowledgement. -/
def handleWebhookRequest (registry : List String) (method url : String)
    (body : Option J) : List ServerEvent :=
  if method = "POST" ∧ url.startsWith "/webhook/" = true then
    let mac := macOfUrl url
    match parseNotifyStatus body with
    | none => [.respond 200]
    | some parsed =>
        [ServerEvent.respond 200] ++
        (if mac.toUpper ∈ registry then [ServerEvent.invoke mac.toUpper] else []) ++
        (if channelKeyOf mac.toUpper parsed ∈ registry then
          [ServerEvent.invoke (channelKeyOf mac.toUpper parsed)] else [])
  else [.respond 404]

/-! ## FreshnessCoordinator: poll-failure hysteresis  (drivers/em06p/device.js) -/

/-- `POLL_MAX_CONSEC_FAILS` (drivers/em06p/device.js line 12). -/
def POLL_MAX_CONSEC_FAILS : ℕ := 3

/-- `MIN_POLL_INTERVAL_S` (drivers/em06p/device.js line 10). -/
def MIN_POLL_INTERVAL_S : ℚ := 5

/-- `DEFAULT_POLL_INTERVAL_S` (drivers/em06p/device.js line 9). -/
def DEFAULT_POLL_INTERVAL_S : ℚ := 10

/-- The availability-relevant state owned by one parent (non-channel)
device: `_consecutivePollFailures` and the host availability flag. -/
structure PollState where
  failures : ℕ
  available : Bool
deriving Repr, DecidableEq

/-- One completed `_pollDevice` run on the parent device, abstracted over
whether the poll body succeeded (`ok = true`) or threw (`ok = false`).
Mirrors drivers/em06p/device.js lines 316–336: on success the failure
counter is reset to 0 and `setAvailable()` is called when the device was
unavailable; on failure the counter is incremented, and only when it has
reached `POLL_MAX_CONSEC_FAILS` is `setUnavailable()` called. -/
def pollStep (ok : Bool) (s : PollState) : PollState :=
  if ok then
    { failures := 0, available := true }
  else
    let f := s.failures + 1
    if f < POLL_MAX_CONSEC_FAILS then
      { s with failures := f }
    else
      { failures := f, available := false }

/-! ## Poll interval consumed from settings (drivers/em06p/device.js) -/

/-- Effective poll interval (ms) computed in `onInit` (line 26):
`Math.max(MIN_POLL_INTERVAL_S, this.getSetting('poll_interval') || DEFAULT_POLL_INTERVAL_S) * 1000`.
The setting is `none` when unset; a falsy setting (unset or 0) falls
back to the default of 10 s. -/
def pollIntervalInitMs (setting : Option ℚ) : ℚ :=
  let v : ℚ := if jsTruthy (setting.map J.jnum) then setting.getD 0 else DEFAULT_POLL_INTERVAL_S
  max MIN_POLL_INTERVAL_S v * 1000

/-- Effective poll interval (ms) computed in `onSettings` (lines 367–372):
`Math.max(MIN_POLL_INTERVAL_S, newSettings.poll_interval) * 1000`
(run only when `poll_interval` is present in the new settings). -/
def pollIntervalSettingsMs (v : ℚ) : ℚ :=
  max MIN_POLL_INTERVAL_S v * 1000

end Refoss

namespace Refoss

/-! # Theorems -/

/-- **C1** — Availability hysteresis in the parent device's poll loop,
with the failure threshold fixed at `POLL_MAX_CONSEC_FAILS = 3`: starting
a run of consecutive failures from any state with a zero failure counter,
the first and the second failure leave the availability flag unchanged
(in particular an available device stays available), the third
consecutive failure makes the device unavailable, and a single successful
poll — from any state whatsoever — resets the counter to 0 and makes the
device available. -/
theorem pollDevice_hysteresis :
    POLL_MAX_CONSEC_FAILS = 3 ∧
    (∀ s : PollState, s.failures = 0 →
      (pollStep false s).available = s.available ∧
      (pollStep false (pollStep false s)).available = s.available ∧
      (pollStep false (pollStep false (pollStep false s))).available = false) ∧
    (∀ s : PollState, pollStep true s = ⟨0, true⟩) := by
  refine ⟨rfl, ?_, ?_⟩
  · intro s h
    obtain ⟨f, a⟩ := s
    cases h
    simp [pollStep, POLL_MAX_CONSEC_FAILS]
  · intro s
    simp [pollStep]

/-- Witness for C1: the hysteresis theorem applied to the concrete
initial state (0 failures, available), checking the full
fail/fail/fail/success trajectory. -/
theorem pollDevice_hysteresis_witness :
    (pollStep false ⟨0, true⟩).available = true ∧
    (pollStep false (pollStep false ⟨0, true⟩)).available = true ∧
    (pollStep false (pollStep false (pollStep false ⟨0, true⟩))).available = false ∧
    pollStep true ⟨3, false⟩ = ⟨0, true⟩ := by
  obtain ⟨-, h2, h3⟩ := pollDevice_hysteresis
  obtain ⟨a, b, c⟩ := h2 ⟨0, true⟩ rfl
  exact ⟨a, b, c, h3 ⟨3, false⟩⟩

/-- Helper: the aggregate fold of `parseEmStatus` touches exactly the
channels in which the summed field is present. -/
theorem emTotalOf_eq_filterMap (field : String) (chs : List J) :
    emTotalOf field chs = (chs.filterMap (fun ch => ch.get field)).foldl addField (some 0) := by
  unfold emTotalOf
  generalize (some 0 : Option ℚ) = acc
  induction chs generalizing acc with
  | nil => rfl
  | cons ch rest ih =>
      cases h : ch.get field <;> simp [h, ih]

/-- Helper: when every present value of the summed field is a plain
number, the aggregate total is the rational sum of those values. -/
theorem emTotalOf_numeric (field : String) (chs : List J)
    (h : ∀ ch ∈ chs, ∀ v, ch.get field = some v → ∃ q : ℚ, v = J.jnum q) :
    emTotalOf field chs =
      some ((chs.filterMap (fun ch =>
        match ch.get field with
        | some (J.jnum q) => some q
        | _ => none)).sum) := by
  unfold emTotalOf
  have key : ∀ (l : List J),
      (∀ ch ∈ l, ∀ v, ch.get field = some v → ∃ q : ℚ, v = J.jnum q) →
      ∀ a : ℚ, l.foldl (fun tp ch =>
          match ch.get field with
          | some v => addField tp v
          | none => tp) (some a) =
        some (a + (l.filterMap (fun ch =>
          match ch.get field with
          | some (J.jnum q) => some q
          | _ => none)).sum) := by
    intro l
    induction l with
    | nil => intro _ a; simp
    | cons ch rest ih =>
        intro hl a
        cases h' : ch.get field with
        | none =>
            simp only [List.foldl_cons, List.filterMap_cons, h']
            exact ih (fun c hc => hl c (List.mem_cons_of_mem _ hc)) a
        | some v =>
            obtain ⟨q, rfl⟩ := hl ch (List.mem_cons_self _ _) v h'
            simp only [List.foldl_cons, List.filterMap_cons, h', List.sum_cons]
            rw [show addField (some a) (J.jnum q) = some (a + q) from rfl,
              ih (fun c hc => hl c (List.mem_cons_of_mem _ hc)) (a + q)]
            ring_nf
  simpa using key chs h 0

/-- **C2** — `parseEmStatus` aggregate totals: for every raw payload the
power (resp. current) total is the fold over exactly the channel records
of the normalized status array in which the field is present (a channel
whose field is absent contributes nothing, rather than being counted as
zero); when the present values are plain numbers the total is their sum;
and on the status array `[{power:10},{}]` the power total is 10. -/
theorem parseEmStatus_totals_present_only :
    (∀ raw : J,
      (parseEmStatus raw).totalPower =
        ((normalizeStatusArray (emResultOf raw)).filterMap
          (fun ch => ch.get "power")).foldl addField (some 0) ∧
      (parseEmStatus raw).totalCurrent =
        ((normalizeStatusArray (emResultOf raw)).filterMap
          (fun ch => ch.get "current")).foldl addField (some 0)) ∧
    (∀ chs : List J,
      (∀ ch ∈ chs, ∀ v, ch.get "power" = some v → ∃ q : ℚ, v = J.jnum q) →
      emTotalOf "power" chs =
        some ((chs.filterMap (fun ch =>
          match ch.get "power" with
          | some (J.jnum q) => some q
          | _ => none)).sum)) ∧
    (parseEmStatus (J.jobj [("result", J.jobj [("status",
        J.jarr [J.jobj [("power", J.jnum 10)], J.jobj []])])])).totalPower = some 10 := by
  refine ⟨fun raw => ⟨emTotalOf_eq_filterMap _ _, emTotalOf_eq_filterMap _ _⟩,
    fun chs h => emTotalOf_numeric "power" chs h, ?_⟩
  with_unfolding_all rfl

/-- Witness for C2: the numeric-sum component applied to the concrete
status array `[{power:10},{}]`. -/
theorem parseEmStatus_totals_present_only_witness :
    emTotalOf "power" [J.jobj [("power", J.jnum 10)], J.jobj []] =
      some (([J.jobj [("power", J.jnum 10)], J.jobj []].filterMap (fun ch =>
        match ch.get "power" with
        | some (J.jnum q) => some q
        | _ => none)).sum) := by
  refine parseEmStatus_totals_present_only.2.1 _ ?_
  intro ch hch v hv
  fin_cases hch
  · rw [show (J.jobj [("power", J.jnum 10)]).get "power" = some (J.jnum 10) from rfl] at hv
    exact ⟨10, (Option.some_injective _ hv).symm⟩
  · rw [show (J.jobj ([] : List (String × J))).get "power" = none from rfl] at hv
    cases hv

/-- **C10** — `parseEmStatus` totals are genuine numbers defaulting to 0:
for every payload in which no normalized channel record carries the
power (resp. current) field — including the empty object and payloads
with no recognizable channel shape — the corresponding total is `some 0`
(never null/absent); consequently a caller cannot distinguish "no
channel reported power" from "total power is zero" through the total
field, as the two concrete payloads at the end show. -/
theorem parseEmStatus_total_zero_default :
    (∀ raw : J, (∀ ch ∈ normalizeStatusArray (emResultOf raw), ch.get "power" = none) →
        (parseEmStatus raw).totalPower = some 0) ∧
    (∀ raw : J, (∀ ch ∈ normalizeStatusArray (emResultOf raw), ch.get "current" = none) →
        (parseEmStatus raw).totalCurrent = some 0) ∧
    (parseEmStatus (J.jobj [])).totalPower = some 0 ∧
    (parseEmStatus (J.jobj [])).totalCurrent = some 0 ∧
    (parseEmStatus (J.jstr "not a status payload")).totalPower = some 0 ∧
    (parseEmStatus (J.jobj [("result", J.jobj [("status",
        J.jarr [J.jobj [("voltage", J.jnum 230)]])])])).totalPower =
      (parseEmStatus (J.jobj [("result", J.jobj [("status",
        J.jarr [J.jobj [("power", J.jnum 0)]])])])).totalPower := by
  refine ⟨?_, ?_, by with_unfolding_all rfl, by with_unfolding_all rfl,
    by with_unfolding_all rfl, by with_unfolding_all rfl⟩
  · intro raw h
    have e := emTotalOf_eq_filterMap "power" (normalizeStatusArray (emResultOf raw))
    have enil : (normalizeStatusArray (emResultOf raw)).filterMap
        (fun ch => ch.get "power") = [] := by
      simp only [List.filterMap_eq_nil_iff]
      exact h
    show emTotalOf "power" (normalizeStatusArray (emResultOf raw)) = some 0
    rw [e, enil]
    rfl
  · intro raw h
    have e := emTotalOf_eq_filterMap "current" (normalizeStatusArray (emResultOf raw))
    have enil : (normalizeStatusArray (emResultOf raw)).filterMap
        (fun ch => ch.get "current") = [] := by
      simp only [List.filterMap_eq_nil_iff]
      exact h
    show emTotalOf "current" (normalizeStatusArray (emResultOf raw)) = some 0
    rw [e, enil]
    rfl

/-- Witness for C10: the no-power-reported component applied to the
concrete payload `{status:[{voltage:230}]}`. -/
theorem parseEmStatus_total_zero_default_witness :
    (parseEmStatus (J.jobj [("status", J.jarr [J.jobj [("voltage", J.jnum 230)]])])).totalPower
      = some 0 := by
  refine parseEmStatus_total_zero_default.1 _ ?_
  intro ch hch
  rw [show normalizeStatusArray
      (emResultOf (J.jobj [("status", J.jarr [J.jobj [("voltage", J.jnum 230)]])])) =
      [J.jobj [("voltage", J.jnum 230)]] by with_unfolding_all rfl] at hch
  fin_cases hch
  rfl

/-- **C7** — apparent-power derivation, as used for every channel entry
of `parseEmStatus` and for `parseNotifyStatus`: the explicit `apower`
field verbatim when present; else `power / pf` when `power` is present
and `pf` is a nonzero number; else null when `power` is absent or `pf`
is absent, null or zero.  Parsing the push body
`{method:"NotifyStatus", params:{em:{id:2, power:150.2, pf:0.92}}}`
yields channel id 2, power 150.2 and apparentPower 150.2/0.92, which is
within 0.05 of 163.3. -/
theorem apparentPower_derivation :
    (∀ ch : J,
      (∀ a, ch.get "apower" = some a → (emEntryOf ch).apparentPower = a) ∧
      (∀ p f : ℚ, ch.get "apower" = none → ch.get "power" = some (J.jnum p) →
        ch.get "pf" = some (J.jnum f) → f ≠ 0 →
        (emEntryOf ch).apparentPower = J.jnum (p / f)) ∧
      (ch.get "apower" = none →
        (ch.get "power" = none ∨ ch.get "pf" = none ∨ ch.get "pf" = some J.jnull ∨
         ch.get "pf" = some (J.jnum 0)) →
        (emEntryOf ch).apparentPower = J.jnull)) ∧
    (parseNotifyStatus (some (J.jobj [("method", J.jstr "NotifyStatus"),
        ("params", J.jobj [("em", J.jobj [("id", J.jnum 2), ("power", J.jnum 150.2),
          ("pf", J.jnum 0.92)])])]))).map
        (fun r => (r.method, r.channelId, r.power, r.apparentPower)) =
      some (J.jstr "NotifyStatus", J.jnum 2, J.jnum 150.2, J.jnum (150.2 / 0.92)) ∧
    |(150.2 : ℚ) / 0.92 - 163.3| < 1/20 := by
  refine ⟨fun ch => ⟨?_, ?_, ?_⟩, by with_unfolding_all rfl, by norm_num [abs_lt]⟩
  · intro a ha
    simp [emEntryOf, emApparentPower, ha]
  · intro p f h0 hp hf hf0
    simp [emEntryOf, emApparentPower, h0, hp, hf, jsLooseNeqNull, jsStrictNeqZero, hf0,
      fieldOrNull, jsDiv, jsToNumber]
  · intro h0 hcase
    rcases hcase with h | h | h | h <;>
      simp [emEntryOf, emApparentPower, h0, h, jsLooseNeqNull, jsStrictNeqZero]

/-- Witness for C7: the `power / pf` branch applied to the concrete
channel record `{power:150.2, pf:0.92}`. -/
theorem apparentPower_derivation_witness :
    (emEntryOf (J.jobj [("power", J.jnum 150.2), ("pf", J.jnum 0.92)])).apparentPower =
      J.jnum (150.2 / 0.92) := by
  exact ((apparentPower_derivation.1 _).2.1 150.2 0.92 rfl rfl rfl (by norm_num))

/-- Helper: a natural below `16^k` has at most `k` hex digits. -/
theorem natHexAux_length_le (fuel n k : ℕ) (h : n < 16 ^ k) : (natHexAux fuel n).length ≤ k := by
  induction fuel generalizing n k with
  | zero => simp [natHexAux]
  | succ fuel ih =>
      unfold natHexAux
      by_cases h0 : n = 0
      · simp [h0]
      · simp only [if_neg h0, List.length_append, List.length_cons, List.length_nil]
        have hk : 1 ≤ k := by
          rcases Nat.eq_zero_or_pos k with hk0 | hk0
          · rw [hk0] at h
            simp at h
            omega
          · exact hk0
        have hdiv : n / 16 < 16 ^ (k - 1) := by
          rw [Nat.div_lt_iff_lt_mul (by norm_num : (0:ℕ) < 16)]
          calc n < 16 ^ k := h
            _ = 16 ^ (k - 1) * 16 := by
                rw [← pow_succ]
                congr 1
                omega
        have := ih (n / 16) (k - 1) hdiv
        omega

/-- Helper: the rendered nonce count has exactly 8 hex digits for
every counter value below `16^8`. -/
theorem ncHexStr_length (nc : ℕ) (h : nc < 16 ^ 8) : (ncHexStr nc).length = 8 := by
  unfold ncHexStr
  by_cases h0 : nc = 0
  · simp [h0, String.length, String.append]
  · have hle := natHexAux_length_le nc nc 8 h
    simp only [if_neg h0]
    simp [String.length, String.append]
    omega

/-- Helper: on a 401 with credentials configured, `_get` increments
`_nc` by exactly one and sends the Digest header computed from the new
counter and the per-request client nonce. -/
theorem refossGet_auth_retry (u p : String) (nc : ℕ) (cnonce path : String)
    (r1 r2 : HttpResp) (h : r1.status = 401) :
    (refossGet (some (u, p)) nc cnonce path r1 r2).ncAfter = nc + 1 ∧
    (refossGet (some (u, p)) nc cnonce path r1 r2).authHeaderSent =
      some (buildDigestHeader u p "GET" ("/rpc/" ++ path) r1.challenge (nc + 1) cnonce) := by
  simp only [refossGet, if_pos h]
  constructor <;> (split <;> first | rfl | (split <;> rfl))

/-- Helper: the legacy flat error envelope `{code<0, message}` becomes
a device-error failure. -/
theorem parseJson_legacy (parsed : J) (c : J) (hc : parsed.get "code" = some c)
    (hneg : jsLtZero c = true) :
    parseJson (some parsed) =
      .error (.deviceError (fieldOrNull parsed "code") (fieldOrNull parsed "message")) := by
  cases parsed with
  | jobj pf =>
      have hleg : (match (J.jobj pf).get "code" with
          | some c' => jsLtZero c'
          | none => false) = true := by
        rw [hc]
        exact hneg
      simp only [parseJson]
      rw [hleg]
      simp
  | jnull => simp [J.get] at hc
  | jbool b => simp [J.get] at hc
  | jnum q => simp [J.get] at hc
  | jnan => simp [J.get] at hc
  | jstr st => simp [J.get] at hc
  | jarr a => simp [J.get] at hc

/-- Helper: the JSON-RPC error envelope `{error:{code,message}}`
becomes a device-error failure (when the legacy check did not fire). -/
theorem parseJson_rpc (parsed : J) (flds : List (String × J))
    (hnoleg : ∀ c, parsed.get "code" = some c → jsLtZero c = false)
    (he : parsed.get "error" = some (J.jobj flds)) :
    parseJson (some parsed) =
      .error (.deviceError (fieldOrNull (J.jobj flds) "code")
        (fieldOrNull (J.jobj flds) "message")) := by
  cases parsed with
  | jobj pf =>
      have hleg : (match (J.jobj pf).get "code" with
          | some c => jsLtZero c
          | none => false) = false := by
        cases hc : (J.jobj pf).get "code" with
        | none => rfl
        | some c => simpa using hnoleg c hc
      simp [parseJson, hleg, he, jsTruthy, jsTypeofObject]
  | jnull => simp [J.get] at he
  | jbool b => simp [J.get] at he
  | jnum q => simp [J.get] at he
  | jnan => simp [J.get] at he
  | jstr s => simp [J.get] at he
  | jarr a => simp [J.get] at he


set_option maxRecDepth 10000 in
/-- **C4** — RFC 2617 Digest computation: the MD5 core matches the
standard test vectors; `digestResponse`/`buildDigestHeader` reproduce
the RFC 2617 example (realm `testrealm@host.com`, qop `auth`, nc 1,
cnonce `0a4f113b`) exactly, response hash
`6629fae49393a05397450978507c4ef1`; the MD5-sess variant hashes
`MD5(MD5(user:realm:pass):nonce:cnonce)`; the nonce count is rendered as
exactly 8 hex digits for every counter below 16^8; and each
authenticated retry uses counter `nc + 1` (monotonically incremented per
request) together with the per-request client nonce in the header it
sends. -/
theorem digest_rfc2617 :
    md5hex "" = "d41d8cd98f00b204e9800998ecf8427e" ∧
    md5hex "abc" = "900150983cd24fb0d6963f7d28e17f72" ∧
    digestResponse "Mufasa" "Circle Of Life" "GET" "/dir/index.html"
      ⟨"testrealm@host.com", "dcd98b7102dd2f0e8b11d0f600bfb0c093", some "auth",
        some "5ccc069c403ebaf9f0171e9517f40e41", none⟩ 1 "0a4f113b" =
      "6629fae49393a05397450978507c4ef1" ∧
    buildDigestHeader "Mufasa" "Circle Of Life" "GET" "/dir/index.html"
      ⟨"testrealm@host.com", "dcd98b7102dd2f0e8b11d0f600bfb0c093", some "auth",
        some "5ccc069c403ebaf9f0171e9517f40e41", none⟩ 1 "0a4f113b" =
      "Digest username=\"Mufasa\", realm=\"testrealm@host.com\", nonce=\"dcd98b7102dd2f0e8b11d0f600bfb0c093\", uri=\"/dir/index.html\", response=\"6629fae49393a05397450978507c4ef1\", qop=auth, nc=00000001, cnonce=\"0a4f113b\", opaque=\"5ccc069c403ebaf9f0171e9517f40e41\"" ∧
    (∀ (u p realm nonce cn : String) (q o : Option String),
      digestHA1 u p ⟨realm, nonce, q, o, some "MD5-sess"⟩ cn =
        md5hex (md5hex (u ++ ":" ++ realm ++ ":" ++ p) ++ ":" ++ nonce ++ ":" ++ cn)) ∧
    (∀ nc : ℕ, nc < 16 ^ 8 → (ncHexStr nc).length = 8) ∧
    ncHexStr 1 = "00000001" ∧
    (∀ (u p : String) (nc : ℕ) (cnonce path : String) (r1 r2 : HttpResp),
      r1.status = 401 →
      (refossGet (some (u, p)) nc cnonce path r1 r2).ncAfter = nc + 1 ∧
      (refossGet (some (u, p)) nc cnonce path r1 r2).authHeaderSent =
        some (buildDigestHeader u p "GET" ("/rpc/" ++ path) r1.challenge (nc + 1) cnonce)) := by
  refine ⟨by with_unfolding_all rfl, by with_unfolding_all rfl, by with_unfolding_all rfl,
    by with_unfolding_all rfl, ?_, fun nc h => ncHexStr_length nc h, by with_unfolding_all rfl,
    fun u p nc cnonce path r1 r2 h => refossGet_auth_retry u p nc cnonce path r1 r2 h⟩
  intro u p realm nonce cn q o
  simp only [digestHA1]
  rw [if_pos (by with_unfolding_all rfl)]

/-- Witness for C4: the 8-hex-digit rendering at counter 300 and the
nc-increment behavior at a concrete 401 exchange with counter 4. -/
theorem digest_rfc2617_witness :
    (ncHexStr 300).length = 8 ∧
    (refossGet (some ("admin", "pw")) 4 "0011aabb" "Refoss.Status.Get"
      ⟨401, none, ⟨"refoss", "abc123", some "auth", none, none⟩⟩
      ⟨200, some (J.jobj []), ⟨"", "", none, none, none⟩⟩).ncAfter = 4 + 1 :=
  ⟨digest_rfc2617.2.2.2.2.2.1 300 (by norm_num),
   (digest_rfc2617.2.2.2.2.2.2.2 "admin" "pw" 4 "0011aabb" "Refoss.Status.Get"
      ⟨401, none, ⟨"refoss", "abc123", some "auth", none, none⟩⟩
      ⟨200, some (J.jobj []), ⟨"", "", none, none, none⟩⟩ rfl).1⟩

/-- **C5** — Transport error ordering of `_get`: the unauthenticated
request is sent first (no Authorization header accompanies it); a 401
with no configured username fails with the missing-credentials error and
no retry; with credentials the call is retried exactly once and a second
401 is the bad-credentials failure, any other non-200 retry status an
HTTP-status failure; a non-401, non-200 first status is an HTTP-status
failure with no retry; a 200 body on either attempt goes through
`parseJson`, which converts the legacy `{code<0,message}` envelope and
the JSON-RPC `{error:{code,message}}` envelope into device-error
failures. -/
theorem refossGet_error_ordering :
    (∀ (nc : ℕ) (cnonce path : String) (r1 r2 : HttpResp), r1.status = 401 →
      refossGet none nc cnonce path r1 r2 =
        ⟨.error .missingCredentials, nc, none⟩) ∧
    (∀ (u p : String) (nc : ℕ) (cnonce path : String) (r1 r2 : HttpResp),
      r1.status = 401 → r2.status = 401 →
      (refossGet (some (u, p)) nc cnonce path r1 r2).result = .error .badCredentials) ∧
    (∀ (u p : String) (nc : ℕ) (cnonce path : String) (r1 r2 : HttpResp),
      r1.status = 401 → ¬ r2.status = 401 → ¬ r2.status = 200 →
      (refossGet (some (u, p)) nc cnonce path r1 r2).result =
        .error (.httpStatus r2.status)) ∧
    (∀ (creds : Option (String × String)) (nc : ℕ) (cnonce path : String)
      (r1 r2 : HttpResp), ¬ r1.status = 401 → ¬ r1.status = 200 →
      refossGet creds nc cnonce path r1 r2 =
        ⟨.error (.httpStatus r1.status), nc, none⟩) ∧
    (∀ (u p : String) (nc : ℕ) (cnonce path : String) (r1 r2 : HttpResp),
      r1.status = 401 → r2.status = 200 →
      (refossGet (some (u, p)) nc cnonce path r1 r2).result = parseJson r2.body) ∧
    (∀ (creds : Option (String × String)) (nc : ℕ) (cnonce path : String)
      (r1 r2 : HttpResp), r1.status = 200 →
      refossGet creds nc cnonce path r1 r2 = ⟨parseJson r1.body, nc, none⟩) ∧
    (∀ (parsed : J) (c : J), parsed.get "code" = some c → jsLtZero c = true →
      parseJson (some parsed) =
        .error (.deviceError (fieldOrNull parsed "code") (fieldOrNull parsed "message"))) ∧
    (∀ (parsed : J) (flds : List (String × J)),
      (∀ c, parsed.get "code" = some c → jsLtZero c = false) →
      parsed.get "error" = some (J.jobj flds) →
      parseJson (some parsed) =
        .error (.deviceError (fieldOrNull (J.jobj flds) "code")
          (fieldOrNull (J.jobj flds) "message"))) := by
  refine ⟨?_, ?_, ?_, ?_, ?_, ?_,
    fun parsed c hc hneg => parseJson_legacy parsed c hc hneg,
    fun parsed flds h1 h2 => parseJson_rpc parsed flds h1 h2⟩
  · intro nc cnonce path r1 r2 h
    simp [refossGet, h]
  · intro u p nc cnonce path r1 r2 h1 h2
    simp [refossGet, h1, h2]
  · intro u p nc cnonce path r1 r2 h1 h2 h3
    simp [refossGet, h1, h2, h3]
  · intro creds nc cnonce path r1 r2 h1 h2
    cases creds <;> simp [refossGet, h1, h2]
  · intro u p nc cnonce path r1 r2 h1 h2
    simp [refossGet, h1, h2]
  · intro creds nc cnonce path r1 r2 h1
    have h401 : ¬ r1.status = 401 := by omega
    cases creds <;> simp [refossGet, h1, h401]

/-- Witness for C5: the missing-credentials, bad-credentials and both
device-error envelope conversions at concrete responses. -/
theorem refossGet_error_ordering_witness :
    refossGet none 0 "cn" "Refoss.Status.Get" ⟨401, none, ⟨"r", "n", none, none, none⟩⟩
      ⟨200, none, ⟨"r", "n", none, none, none⟩⟩ =
      ⟨.error .missingCredentials, 0, none⟩ ∧
    (refossGet (some ("u", "p")) 0 "cn" "Refoss.Status.Get"
      ⟨401, none, ⟨"r", "n", none, none, none⟩⟩
      ⟨401, none, ⟨"r", "n", none, none, none⟩⟩).result = .error .badCredentials ∧
    parseJson (some (J.jobj [("code", J.jnum (-1)), ("message", J.jstr "boom")])) =
      .error (.deviceError (J.jnum (-1)) (J.jstr "boom")) ∧
    parseJson (some (J.jobj [("error",
        J.jobj [("code", J.jnum (-103)), ("message", J.jstr "bad params")])])) =
      .error (.deviceError (J.jnum (-103)) (J.jstr "bad params")) :=
  ⟨refossGet_error_ordering.1 0 "cn" "Refoss.Status.Get" _ _ rfl,
   refossGet_error_ordering.2.1 "u" "p" 0 "cn" "Refoss.Status.Get" _ _ rfl rfl,
   refossGet_error_ordering.2.2.2.2.2.2.1
     (J.jobj [("code", J.jnum (-1)), ("message", J.jstr "boom")]) (J.jnum (-1)) rfl
     (by norm_num [jsLtZero, jsToNumber]),
   refossGet_error_ordering.2.2.2.2.2.2.2
     (J.jobj [("error", J.jobj [("code", J.jnum (-103)), ("message", J.jstr "bad params")])])
     [("code", J.jnum (-103)), ("message", J.jstr "bad params")]
     (fun c hc => by simp [J.get] at hc) rfl⟩


/-- Helper: folding id-deletions over a hook list filters out every
hook sharing an id with the list. -/
theorem hooks_foldl_delete (L : List Hook) (s : DevState) :
    (L.foldl (fun st h => deleteWebhook h.id st) s).hooks =
      s.hooks.filter (fun h => L.all (fun d => ¬ h.id = d.id)) := by
  induction L generalizing s with
  | nil => simp
  | cons d L ih =>
      simp only [List.foldl_cons]
      rw [ih]
      simp [deleteWebhook, List.filter_filter, List.all_cons, Bool.and_comm]

/-- Helper: after the cleanup loop no hook matching the naming
conventions remains. -/
theorem deleteHomeyHooks_clean (s : DevState) :
    ∀ h ∈ (deleteHomeyHooks s).hooks, isHomeyHookName h.name = false := by
  intro h hh
  unfold deleteHomeyHooks at hh
  rw [hooks_foldl_delete, List.mem_filter] at hh
  obtain ⟨hmem, hall⟩ := hh
  by_contra hne
  have htrue : isHomeyHookName h.name = true := by
    cases hb : isHomeyHookName h.name
    · exact absurd hb hne
    · rfl
  simp only [List.all_eq_true, decide_eq_true_eq] at hall
  exact hall h (List.mem_filter.mpr ⟨hmem, htrue⟩) rfl

/-- Helper: a hook list with no convention-named hooks has no hook
named `homeyrefoss`. -/
theorem countName_zero_of_clean (l : List Hook)
    (h : ∀ hk ∈ l, isHomeyHookName hk.name = false) : countName l HOOK_NAME = 0 := by
  unfold countName
  rw [List.length_eq_zero, List.filter_eq_nil_iff]
  intro hk hmem
  have := h hk hmem
  simp only [decide_eq_true_eq]
  intro he
  rw [isHomeyHookName, he] at this
  simp [HOOK_NAME] at this

/-- Helper: name counts add over append. -/
theorem countName_append (l1 l2 : List Hook) (n : String) :
    countName (l1 ++ l2) n = countName l1 n + countName l2 n := by
  simp [countName, List.filter_append]

/-- Helper: a per-channel hook name is never the bare `homeyrefoss`. -/
theorem perChannel_name_ne (cid : ℤ) : ¬ (HOOK_NAME ++ "c" ++ toString cid = HOOK_NAME) := by
  intro he
  have hlen := congrArg String.length he
  rw [String.length_append, String.length_append] at hlen
  have h1 : HOOK_NAME.length = 11 := rfl
  have h2 : "c".length = 1 := rfl
  rw [h1, h2] at hlen
  omega

/-- Helper: the per-channel creation loop adds no hook named
`homeyrefoss`. -/
theorem countName_foldl_create (ids : List ℤ) (ev : String) (s2 : DevState) :
    countName ((ids.foldl (fun st cid =>
      (createWebhook (HOOK_NAME ++ "c" ++ toString cid) ev cid st).1) s2).hooks) HOOK_NAME =
    countName s2.hooks HOOK_NAME := by
  induction ids generalizing s2 with
  | nil => rfl
  | cons cid ids ih =>
      simp only [List.foldl_cons]
      rw [ih]
      simp [createWebhook, countName, List.filter_append, perChannel_name_ne cid]

/-- Helper: creating the primary hook adds exactly one `homeyrefoss`
entry. -/
theorem countName_create_self (ev : String) (cid : ℤ) (st : DevState) :
    countName ((createWebhook HOOK_NAME ev cid st).1).hooks HOOK_NAME =
      countName st.hooks HOOK_NAME + 1 := by
  simp [createWebhook, countName, List.filter_append]

/-- Helper: a single `registerHomeyWebhook` run leaves exactly one hook
named `homeyrefoss`. -/
theorem registerHomeyWebhook_once (emEvent : String) (channelIds : List ℤ) (s : DevState) :
    countName (registerHomeyWebhook emEvent channelIds s).hooks HOOK_NAME = 1 := by
  have h0 : countName (deleteHomeyHooks s).hooks HOOK_NAME = 0 :=
    countName_zero_of_clean _ (deleteHomeyHooks_clean s)
  simp only [registerHomeyWebhook]
  split <;> (try split) <;>
    first
      | rw [countName_foldl_create, countName_create_self, h0]
      | rw [countName_create_self, h0]

/-- **C3** — Webhook registration is idempotent on the simulated device:
`registerHomeyWebhook` first lists the subscriptions and deletes every
hook whose name matches the current convention (`homeyrefoss`), the
legacy name (`homey-refoss`) or the per-channel prefix
(`homeyrefossc...`) — after the cleanup no such hook remains — before
creating new ones, so for every device state a `register` call, and
likewise two consecutive calls, leave exactly one subscription named
with the current naming convention, never two; `unregisterHomeyWebhook`
performs the same cleanup. -/
theorem registerHomeyWebhook_idempotent :
    (∀ (s : DevState) (h : Hook), h ∈ (deleteHomeyHooks s).hooks →
      isHomeyHookName h.name = false) ∧
    (∀ (emEvent : String) (channelIds : List ℤ) (s : DevState),
      countName (registerHomeyWebhook emEvent channelIds s).hooks HOOK_NAME = 1) ∧
    (∀ (emEvent : String) (channelIds : List ℤ) (s : DevState),
      countName (registerHomeyWebhook emEvent channelIds
        (registerHomeyWebhook emEvent channelIds s)).hooks HOOK_NAME = 1) ∧
    (∀ (s : DevState) (h : Hook), h ∈ (unregisterHomeyWebhook s).hooks →
      isHomeyHookName h.name = false) := by
  refine ⟨fun s h hh => deleteHomeyHooks_clean s h hh,
    fun e c s => registerHomeyWebhook_once e c s,
    fun e c s => registerHomeyWebhook_once e c _,
    fun s h hh => deleteHomeyHooks_clean s h hh⟩

/-- Witness for C3: a concrete device state carrying a stale current,
legacy and per-channel hook plus one unrelated hook — the cleanup leaves
the unrelated hook untouched (it does not match the conventions), and
registering against this state yields exactly one `homeyrefoss`
subscription. -/
theorem registerHomeyWebhook_idempotent_witness :
    isHomeyHookName (Hook.mk 5 "other" "x" 1).name = false ∧
    countName (registerHomeyWebhook "em.power_change" [1, 2, 3, 4, 5, 6]
      (DevState.mk [Hook.mk 0 "homeyrefoss" "em.status_update" 1,
        Hook.mk 1 "homey-refoss" "em.status_update" 1,
        Hook.mk 2 "homeyrefossc3" "em.power_change" 3,
        Hook.mk 5 "other" "x" 1] 6)).hooks HOOK_NAME = 1 :=
  ⟨registerHomeyWebhook_idempotent.1
      (DevState.mk [Hook.mk 0 "homeyrefoss" "em.status_update" 1,
        Hook.mk 1 "homey-refoss" "em.status_update" 1,
        Hook.mk 2 "homeyrefossc3" "em.power_change" 3,
        Hook.mk 5 "other" "x" 1] 6)
      (Hook.mk 5 "other" "x" 1)
      (by
        rw [show (deleteHomeyHooks (DevState.mk
            [Hook.mk 0 "homeyrefoss" "em.status_update" 1,
              Hook.mk 1 "homey-refoss" "em.status_update" 1,
              Hook.mk 2 "homeyrefossc3" "em.power_change" 3,
              Hook.mk 5 "other" "x" 1] 6)).hooks = [Hook.mk 5 "other" "x" 1] from by
          with_unfolding_all rfl]
        exact List.mem_singleton.mpr rfl),
    registerHomeyWebhook_idempotent.2.1 "em.power_change" [1, 2, 3, 4, 5, 6] _⟩


/-- Helper: the masking loop preserves length. -/
theorem maskBytesFrom_length (mask : List ℕ) (i : ℕ) (bs : List ℕ) :
    (maskBytesFrom mask i bs).length = bs.length := by
  induction bs generalizing i with
  | nil => rfl
  | cons b bs ih => simp [maskBytesFrom, ih]

/-- Helper: XOR-masking with the same 4-byte mask twice is the
identity. -/
theorem maskBytesFrom_involutive (mask : List ℕ) (i : ℕ) (bs : List ℕ) :
    maskBytesFrom mask i (maskBytesFrom mask i bs) = bs := by
  induction bs generalizing i with
  | nil => rfl
  | cons b bs ih => simp [maskBytesFrom, ih, Nat.xor_cancel_right]

/-- **C6** — WebSocket frame round-trip: for every payload of length
below 2^31 (covering the 10-, 200- and 100,000-byte cases of the spec,
i.e. all three length-field encodings) and every 4-byte mask, encoding a
masked text frame with `_wsRpc`'s length logic and XOR-masking, then
decoding with the receive-side length parsing and unmasking, yields a
single complete frame `(0x81, masked)` carrying exactly the original
payload bytes with nothing left in the buffer. -/
theorem wsFrame_roundtrip (mask payload : List ℕ) (hm : mask.length = 4)
    (hlen : payload.length < 2 ^ 31) :
    wsDecodeFrame (wsEncodeFrame mask payload) = some (0x81, true, payload, []) := by
  have hml : (maskPayload mask payload).length = payload.length :=
    maskBytesFrom_length mask 0 payload
  have hinv : maskPayload mask (maskPayload mask payload) = payload :=
    maskBytesFrom_involutive mask 0 payload
  have htake : ∀ t : List ℕ, (mask ++ t).take 4 = mask := by
    intro t
    rw [← hm, List.take_left]
  have hdropm : ∀ t : List ℕ, (mask ++ t).drop 4 = t := by
    intro t
    rw [← hm, List.drop_left]
  have hdropL : ∀ n, (mask ++ maskPayload mask payload).drop (4 + n) =
      (maskPayload mask payload).drop n := by
    intro n
    rw [← hm, List.drop_append]
  have hdone : (maskPayload mask payload).drop payload.length = [] := by
    rw [← hml, List.drop_length]
  have htakeLen : (maskPayload mask payload).take payload.length = maskPayload mask payload := by
    rw [← hml, List.take_length]
  by_cases h1 : payload.length < 126
  · have e1 : wsEncodeFrame mask payload =
        129 :: (128 + payload.length) :: (mask ++ maskPayload mask payload) := by
      simp [wsEncodeFrame, if_pos h1]
    rw [e1]
    unfold wsDecodeFrame
    have hp : (128 + payload.length) % 128 = payload.length := by omega
    simp only [hp, List.length_cons, List.length_append, hml, hm]
    rw [if_neg (by omega), if_neg (by omega)]
    simp only []
    rw [if_pos (by omega : 128 ≤ 128 + payload.length), if_neg (by omega)]
    have hd2 : (129 :: (128 + payload.length) :: (mask ++ maskPayload mask payload)).drop 2 =
        mask ++ maskPayload mask payload := rfl
    have hd6 : List.drop (2 + 4)
        (129 :: (128 + payload.length) :: (mask ++ maskPayload mask payload)) =
        List.drop 4 (mask ++ maskPayload mask payload) := rfl
    have hd7 : List.drop (2 + 4 + payload.length)
        (129 :: (128 + payload.length) :: (mask ++ maskPayload mask payload)) =
        List.drop (4 + payload.length) (mask ++ maskPayload mask payload) := by
      rw [show 2 + 4 + payload.length = (4 + payload.length) + 1 + 1 by omega]
      rw [List.drop_succ_cons, List.drop_succ_cons]
    rw [hd2, htake, hd6, hdropm, htakeLen, hinv, hd7, hdropL, hdone]
  · by_cases h2 : payload.length < 65536
    · have e2 : wsEncodeFrame mask payload =
          129 :: 254 :: (payload.length / 2 ^ 8 % 256) :: (payload.length % 256) ::
            (mask ++ maskPayload mask payload) := by
        simp [wsEncodeFrame, if_neg h1, if_pos h2]
      rw [e2]
      unfold wsDecodeFrame
      simp only [List.length_cons, List.length_append, hml, hm, reduceIte]
      rw [if_neg (show ¬ (4 + payload.length + 1 + 1 + 1 + 1 < 4) by omega)]
      have hg2 : (129 :: 254 :: (payload.length / 2 ^ 8 % 256) :: (payload.length % 256) ::
          (mask ++ maskPayload mask payload)).getD 2 0 = payload.length / 2 ^ 8 % 256 := rfl
      have hg3 : (129 :: 254 :: (payload.length / 2 ^ 8 % 256) :: (payload.length % 256) ::
          (mask ++ maskPayload mask payload)).getD 3 0 = payload.length % 256 := rfl
      rw [hg2, hg3, show payload.length / 2 ^ 8 % 256 * 2 ^ 8 + payload.length % 256 =
        payload.length from by omega]
      simp only []
      rw [if_pos (show (128:ℕ) ≤ 254 by norm_num), if_neg (by omega)]
      have hd4 : (129 :: 254 :: (payload.length / 2 ^ 8 % 256) :: (payload.length % 256) ::
          (mask ++ maskPayload mask payload)).drop 4 = mask ++ maskPayload mask payload := rfl
      have hd8 : List.drop (4 + 4) (129 :: 254 :: (payload.length / 2 ^ 8 % 256) ::
          (payload.length % 256) :: (mask ++ maskPayload mask payload)) =
          List.drop 4 (mask ++ maskPayload mask payload) := rfl
      have hd9 : List.drop (4 + 4 + payload.length) (129 :: 254 ::
          (payload.length / 2 ^ 8 % 256) :: (payload.length % 256) ::
          (mask ++ maskPayload mask payload)) =
          List.drop (4 + payload.length) (mask ++ maskPayload mask payload) := by
        rw [show 4 + 4 + payload.length = (4 + payload.length) + 1 + 1 + 1 + 1 by omega]
        rw [List.drop_succ_cons, List.drop_succ_cons, List.drop_succ_cons, List.drop_succ_cons]
      rw [hd4, htake, hd8, hdropm, htakeLen, hinv, hd9, hdropL, hdone]
    · have e3 : wsEncodeFrame mask payload =
          129 :: 255 :: 0 :: 0 :: 0 :: 0 :: (payload.length / 2 ^ 24 % 256) ::
            (payload.length / 2 ^ 16 % 256) :: (payload.length / 2 ^ 8 % 256) ::
            (payload.length % 256) :: (mask ++ maskPayload mask payload) := by
        simp [wsEncodeFrame, if_neg h1, if_neg h2]
      rw [e3]
      unfold wsDecodeFrame
      simp only [List.length_cons, List.length_append, hml, hm, reduceIte]
      rw [if_neg (show ¬ (4 + payload.length + 1 + 1 + 1 + 1 + 1 + 1 + 1 + 1 + 1 + 1 < 10)
        by omega)]
      have hg6 : (129 :: 255 :: 0 :: 0 :: 0 :: 0 :: (payload.length / 2 ^ 24 % 256) ::
          (payload.length / 2 ^ 16 % 256) :: (payload.length / 2 ^ 8 % 256) ::
          (payload.length % 256) :: (mask ++ maskPayload mask payload)).getD 6 0 =
          payload.length / 2 ^ 24 % 256 := rfl
      have hg7 : (129 :: 255 :: 0 :: 0 :: 0 :: 0 :: (payload.length / 2 ^ 24 % 256) ::
          (payload.length / 2 ^ 16 % 256) :: (payload.length / 2 ^ 8 % 256) ::
          (payload.length % 256) :: (mask ++ maskPayload mask payload)).getD 7 0 =
          payload.length / 2 ^ 16 % 256 := rfl
      have hg8 : (129 :: 255 :: 0 :: 0 :: 0 :: 0 :: (payload.length / 2 ^ 24 % 256) ::
          (payload.length / 2 ^ 16 % 256) :: (payload.length / 2 ^ 8 % 256) ::
          (payload.length % 256) :: (mask ++ maskPayload mask payload)).getD 8 0 =
          payload.length / 2 ^ 8 % 256 := rfl
      have hg9 : (129 :: 255 :: 0 :: 0 :: 0 :: 0 :: (payload.length / 2 ^ 24 % 256) ::
          (payload.length / 2 ^ 16 % 256) :: (payload.length / 2 ^ 8 % 256) ::
          (payload.length % 256) :: (mask ++ maskPayload mask payload)).getD 9 0 =
          payload.length % 256 := rfl
      rw [hg6, hg7, hg8, hg9, show payload.length / 2 ^ 24 % 256 * 2 ^ 24 +
          payload.length / 2 ^ 16 % 256 * 2 ^ 16 + payload.length / 2 ^ 8 % 256 * 2 ^ 8 +
          payload.length % 256 = payload.length from by omega]
      rw [if_neg (show ¬ ((255:ℕ) % 128 = 126) by norm_num)]
      simp only []
      rw [if_pos (show (128:ℕ) ≤ 255 by norm_num), if_neg (by omega)]
      have hd10 : (129 :: 255 :: 0 :: 0 :: 0 :: 0 :: (payload.length / 2 ^ 24 % 256) ::
          (payload.length / 2 ^ 16 % 256) :: (payload.length / 2 ^ 8 % 256) ::
          (payload.length % 256) :: (mask ++ maskPayload mask payload)).drop 10 =
          mask ++ maskPayload mask payload := rfl
      have hd14 : List.drop (10 + 4) (129 :: 255 :: 0 :: 0 :: 0 :: 0 ::
          (payload.length / 2 ^ 24 % 256) :: (payload.length / 2 ^ 16 % 256) ::
          (payload.length / 2 ^ 8 % 256) :: (payload.length % 256) ::
          (mask ++ maskPayload mask payload)) =
          List.drop 4 (mask ++ maskPayload mask payload) := rfl
      have hd15 : List.drop (10 + 4 + payload.length) (129 :: 255 :: 0 :: 0 :: 0 :: 0 ::
          (payload.length / 2 ^ 24 % 256) :: (payload.length / 2 ^ 16 % 256) ::
          (payload.length / 2 ^ 8 % 256) :: (payload.length % 256) ::
          (mask ++ maskPayload mask payload)) =
          List.drop (4 + payload.length) (mask ++ maskPayload mask payload) := by
        rw [show 10 + 4 + payload.length = (4 + payload.length) + 1 + 1 + 1 + 1 + 1 + 1 + 1 + 1
          + 1 + 1 by omega]
        rw [List.drop_succ_cons, List.drop_succ_cons, List.drop_succ_cons, List.drop_succ_cons,
          List.drop_succ_cons, List.drop_succ_cons, List.drop_succ_cons, List.drop_succ_cons,
          List.drop_succ_cons, List.drop_succ_cons]
      rw [hd10, htake, hd14, hdropm, htakeLen, hinv, hd15, hdropL, hdone]

/-- Witness for C6: the round-trip theorem applied at the three concrete
payload lengths named by the spec — 10, 200 and 100,000 bytes — one for
each length-field encoding. -/
theorem wsFrame_roundtrip_witness :
    wsDecodeFrame (wsEncodeFrame [1, 2, 3, 4] (List.replicate 10 65)) =
      some (0x81, true, List.replicate 10 65, []) ∧
    wsDecodeFrame (wsEncodeFrame [9, 8, 7, 6] (List.replicate 200 66)) =
      some (0x81, true, List.replicate 200 66, []) ∧
    wsDecodeFrame (wsEncodeFrame [0, 255, 17, 3] (List.replicate 100000 67)) =
      some (0x81, true, List.replicate 100000 67, []) := by
  refine ⟨wsFrame_roundtrip _ _ rfl ?_, wsFrame_roundtrip _ _ rfl ?_,
    wsFrame_roundtrip _ _ rfl ?_⟩ <;> rw [List.length_replicate] <;> norm_num

/-- **C8** — Push dispatch: every request that is not a POST to a
`/webhook/<mac>` path gets 404; for every POST to such a path the first
recorded action is the 200 acknowledgement — before the body is parsed
and regardless of the parse outcome; when the body parses to a channel
record, the handler registered under the uppercased mac and the handler
registered under the `MAC:channelId` key are each invoked when present
(and nothing else is ever invoked); when parsing fails or yields null no
handler is invoked, and the response is still 200, never an error
response. -/
theorem pushDispatch_ack_and_route :
    (∀ (reg : List String) (m u : String) (b : Option J),
      ¬ (m = "POST" ∧ u.startsWith "/webhook/" = true) →
      handleWebhookRequest reg m u b = [.respond 404]) ∧
    (∀ (reg : List String) (u : String) (b : Option J), u.startsWith "/webhook/" = true →
      (handleWebhookRequest reg "POST" u b).head? = some (.respond 200)) ∧
    (∀ (reg : List String) (u : String) (b : Option J), u.startsWith "/webhook/" = true →
      parseNotifyStatus b = none →
      handleWebhookRequest reg "POST" u b = [.respond 200]) ∧
    (∀ (reg : List String) (u : String) (b : Option J) (r : NotifyRecord),
      u.startsWith "/webhook/" = true → parseNotifyStatus b = some r →
      ((macOfUrl u).toUpper ∈ reg →
        ServerEvent.invoke (macOfUrl u).toUpper ∈ handleWebhookRequest reg "POST" u b) ∧
      (channelKeyOf (macOfUrl u).toUpper r ∈ reg →
        ServerEvent.invoke (channelKeyOf (macOfUrl u).toUpper r) ∈
          handleWebhookRequest reg "POST" u b) ∧
      (∀ k, ServerEvent.invoke k ∈ handleWebhookRequest reg "POST" u b → k ∈ reg)) ∧
    (∀ (reg : List String) (u : String) (b : Option J) (st : ℕ),
      u.startsWith "/webhook/" = true →
      ServerEvent.respond st ∈ handleWebhookRequest reg "POST" u b → st = 200) := by
  refine ⟨?_, ?_, ?_, ?_, ?_⟩
  · intro reg m u b h
    simp [handleWebhookRequest, h]
  · intro reg u b h
    cases hp : parseNotifyStatus b <;> simp [handleWebhookRequest, h, hp]
  · intro reg u b h hp
    simp [handleWebhookRequest, h, hp]
  · intro reg u b r h hp
    refine ⟨?_, ?_, ?_⟩
    · intro hm
      simp [handleWebhookRequest, h, hp, hm]
    · intro hm
      by_cases hm2 : (macOfUrl u).toUpper ∈ reg <;>
        simp [handleWebhookRequest, h, hp, hm, hm2]
    · intro k hk
      simp only [handleWebhookRequest, if_pos (And.intro rfl h), hp] at hk
      split_ifs at hk <;> simp_all
      rcases hk with rfl | rfl <;> assumption
  · intro reg u b st h hst
    cases hp : parseNotifyStatus b
    · simp [handleWebhookRequest, h, hp] at hst
      omega
    · simp only [handleWebhookRequest, if_pos (And.intro rfl h), hp] at hst
      split_ifs at hst <;> simp_all

/-- Witness for C8: a concrete registry with a device key and a channel
key — a non-POST gets 404, a NotifyStatus push for channel 2 is
acknowledged with 200 first and invokes both handlers, and an
unparseable body is acknowledged with 200 and invokes nothing. -/
theorem pushDispatch_ack_and_route_witness :
    handleWebhookRequest ["AABBCC", "AABBCC:2"] "GET" "/webhook/aabbcc" none =
      [.respond 404] ∧
    (handleWebhookRequest ["AABBCC", "AABBCC:2"] "POST" "/webhook/aabbcc"
      (some (J.jobj [("method", J.jstr "NotifyStatus"),
        ("params", J.jobj [("em", J.jobj [("id", J.jnum 2),
          ("power", J.jnum 10)])])]))).head? = some (.respond 200) ∧
    handleWebhookRequest ["AABBCC", "AABBCC:2"] "POST" "/webhook/aabbcc" none =
      [.respond 200] ∧
    ServerEvent.invoke "AABBCC" ∈ handleWebhookRequest ["AABBCC", "AABBCC:2"] "POST"
      "/webhook/aabbcc" (some (J.jobj [("method", J.jstr "NotifyStatus"),
        ("params", J.jobj [("em", J.jobj [("id", J.jnum 2), ("power", J.jnum 10)])])])) ∧
    ServerEvent.invoke "AABBCC:2" ∈ handleWebhookRequest ["AABBCC", "AABBCC:2"] "POST"
      "/webhook/aabbcc" (some (J.jobj [("method", J.jstr "NotifyStatus"),
        ("params", J.jobj [("em", J.jobj [("id", J.jnum 2), ("power", J.jnum 10)])])])) := by
  have hstart : ("/webhook/aabbcc").startsWith "/webhook/" = true := by
    with_unfolding_all rfl
  have hupper : (macOfUrl "/webhook/aabbcc").toUpper = "AABBCC" := by
    with_unfolding_all rfl
  have hp : parseNotifyStatus (some (J.jobj [("method", J.jstr "NotifyStatus"),
      ("params", J.jobj [("em", J.jobj [("id", J.jnum 2), ("power", J.jnum 10)])])])) =
      some ⟨J.jstr "NotifyStatus", J.jnum 2, J.jnum 10, J.jnull, J.jnull, J.jnull, J.jnull,
        J.jnull, J.jnull, J.jnull, J.jnull, J.jnull, J.jnull⟩ := by
    with_unfolding_all rfl
  have hkey : channelKeyOf (macOfUrl "/webhook/aabbcc").toUpper
      ⟨J.jstr "NotifyStatus", J.jnum 2, J.jnum 10, J.jnull, J.jnull, J.jnull, J.jnull,
        J.jnull, J.jnull, J.jnull, J.jnull, J.jnull, J.jnull⟩ = "AABBCC:2" := by
    with_unfolding_all rfl
  obtain ⟨hdev, hch, -⟩ := pushDispatch_ack_and_route.2.2.2.1 ["AABBCC", "AABBCC:2"]
    "/webhook/aabbcc" _ _ hstart hp
  refine ⟨?_, pushDispatch_ack_and_route.2.1 _ _ _ hstart,
    pushDispatch_ack_and_route.2.2.1 _ _ _ hstart rfl, ?_, ?_⟩
  · refine pushDispatch_ack_and_route.1 _ _ _ _ ?_
    intro hcon
    exact absurd hcon.1 (by decide)
  · have := hdev (by rw [hupper]; decide)
    rwa [hupper] at this
  · have := hch (by rw [hkey]; decide)
    rwa [hkey] at this

/-- **C9 counterexample** — the claim "the effective interval used by the
coordinator is at most 300 seconds for every configured `poll_interval`"
fails on the code: with `poll_interval = 301` the `onSettings` path
computes `Math.max(5, 301) * 1000 = 301000` ms, i.e. 301 s > 300 s. -/
theorem pollInterval_no_upper_clamp :
    pollIntervalSettingsMs 301 = 301000 ∧ ¬ (pollIntervalSettingsMs 301 ≤ 300 * 1000) := by
  constructor
  · norm_num [pollIntervalSettingsMs, MIN_POLL_INTERVAL_S]
  · norm_num [pollIntervalSettingsMs, MIN_POLL_INTERVAL_S]

/-- **C9 (amended)** — the coordinator clamps the configured poll
interval only from below: for every configured value the effective
interval is at least 5 seconds (with unset/zero values falling back to
the 10 s default in `onInit`), and it is at most 300 seconds whenever
the configured value is at most 300 (the 5–300 s range itself is a
settings-schema bound, not enforced in the coordinator code). -/
theorem pollInterval_lower_clamp :
    (∀ v : ℚ, 5 * 1000 ≤ pollIntervalSettingsMs v ∧
      (v ≤ 300 → pollIntervalSettingsMs v ≤ 300 * 1000)) ∧
    (∀ o : Option ℚ, 5 * 1000 ≤ pollIntervalInitMs o) ∧
    pollIntervalInitMs none = 10 * 1000 := by
  refine ⟨?_, ?_, ?_⟩
  · intro v
    constructor
    · have h : (5 : ℚ) ≤ max MIN_POLL_INTERVAL_S v := by
        simp [MIN_POLL_INTERVAL_S, le_max_iff]
      unfold pollIntervalSettingsMs
      nlinarith
    · intro hv
      have h : max MIN_POLL_INTERVAL_S v ≤ 300 := by
        rw [max_le_iff]
        exact ⟨by norm_num [MIN_POLL_INTERVAL_S], hv⟩
      unfold pollIntervalSettingsMs
      nlinarith
  · intro o
    have h : (5 : ℚ) ≤ max MIN_POLL_INTERVAL_S
        (if jsTruthy (o.map J.jnum) then o.getD 0 else DEFAULT_POLL_INTERVAL_S) := by
      simp [MIN_POLL_INTERVAL_S, le_max_iff]
    unfold pollIntervalInitMs
    simp only []
    nlinarith
  · norm_num [pollIntervalInitMs, jsTruthy, DEFAULT_POLL_INTERVAL_S, MIN_POLL_INTERVAL_S]

/-- Witness for C9's amended theorem: at the concrete configured value
10 s the effective interval is 10000 ms, within [5000, 300000]. -/
theorem pollInterval_lower_clamp_witness :
    5 * 1000 ≤ pollIntervalSettingsMs 10 ∧ pollIntervalSettingsMs 10 ≤ 300 * 1000 := by
  obtain ⟨h, -, -⟩ := pollInterval_lower_clamp
  exact ⟨(h 10).1, (h 10).2 (by norm_num)⟩

end Refoss
